import Mathlib

/-!
# Verification of the TikTok downloader backend (`src/backend/server.js`)

The development embeds the request handler `POST /api/download`, the two
extraction adapters `extractWithLibrary` and `extractWithPuppeteer`, and the
helpers `extractVideoId`, `formatDuration` and `formatNumber`.

Modelling conventions.

* JavaScript strings are Lean strings, processed through their character lists.
* JavaScript numbers that hold counts and durations are natural numbers below
  `2 ^ 53` (the safe integers); a quotient of two of them is a binary64 value,
  kept exactly as `mant / 2 ^ shift` (`Float64`), rounded to nearest, ties to
  even, as IEEE 754 division does.
* The two external capabilities (the `TiktokDL` library call and the headless
  browser session) and the clock are fields of an environment `Env`; every
  invocation of a capability is appended to a call log, so that "is invoked" and
  "is not invoked" are statements about that log.
* A thrown `Error` is `Except.error` carrying the error message. A `TypeError` raised
  by the engine carries the message text of V8.
* The request body is a parsed JSON object; its `url` property is a `UrlField`. A
  string `u` is read as the page URL `PageUrl.str u` wherever a `PageUrl` is
  expected.
-/

namespace TikTokDownloader

/-! ## JavaScript numbers -/

/-- A finite non-negative binary64 number, denoting `mant / 2 ^ shift`. -/
structure Float64 where
  mant : Nat
  shift : Nat
deriving DecidableEq, Repr

/-- Search, from `k` upwards, for the least binary exponent shift with
`2 ^ 52 ≤ a * 2 ^ k / b`, which puts the quotient's significand in `[2 ^ 52, 2 ^ 53)`. -/
def normShift (a b : Nat) : Nat → Nat → Nat
  | 0, k => k
  | fuel + 1, k => if 2 ^ 52 * b ≤ a * 2 ^ k then k else normShift a b fuel (k + 1)

/-- The integer nearest to `p / q`, a tie going to the even neighbour. -/
def roundHalfEven (p q : Nat) : Nat :=
  if 2 * (p % q) < q then p / q
  else if q < 2 * (p % q) then p / q + 1
  else if (p / q) % 2 = 0 then p / q else p / q + 1

/-- JavaScript `a / b` for integers `0 ≤ a < 2 ^ 53` and `0 < b`: the binary64 number
nearest to the exact quotient (53-bit significand, ties to even). -/
def jsDiv (a b : Nat) : Float64 :=
  if a = 0 then ⟨0, 0⟩
  else ⟨roundHalfEven (a * 2 ^ normShift a b (53 + b) 0) b, normShift a b (53 + b) 0⟩

/-- JavaScript `Math.floor` on a non-negative binary64 number. -/
def mathFloor (x : Float64) : Nat := x.mant / 2 ^ x.shift

/-- JavaScript `Number.prototype.toString()` on a non-negative integer below `10 ^ 21`. -/
def numToString (n : Nat) : String := Nat.repr n

/-- JavaScript `x.toFixed(f)` for `0 ≤ x < 10 ^ 21` (ECMA-262, Number.prototype.toFixed):
`n` is the integer for which `n / 10 ^ f - x` is closest to zero, the larger one when
there are two; its digits are padded with zeros to `f + 1` places and the decimal point
is put before the last `f` of them. -/
def toFixed (x : Float64) (f : Nat) : String :=
  let n := (2 * 10 ^ f * x.mant + 2 ^ x.shift) / 2 ^ (x.shift + 1)
  let m := (Nat.repr n).data
  if f = 0 then String.mk m
  else
    let m := if m.length ≤ f then List.replicate (f + 1 - m.length) '0' ++ m else m
    String.mk (m.take (m.length - f) ++ '.' :: m.drop (m.length - f))

/-! ## JavaScript strings -/

/-- JavaScript `s.padStart(targetLength, fill)` for a one-character fill string. -/
def padStart (s : String) (targetLength : Nat) (fill : Char) : String :=
  String.mk (List.replicate (targetLength - s.data.length) fill ++ s.data)

/-- Whether the text `cs` begins with the pattern `pat`. -/
def startsWithChars : List Char → List Char → Bool
  | [], _ => true
  | _ :: _, [] => false
  | p :: ps, c :: cs => p == c && startsWithChars ps cs

/-- Whether the pattern `pat` occurs somewhere in the text, scanning start positions
from the left. -/
def includesChars (pat : List Char) : List Char → Bool
  | [] => startsWithChars pat []
  | c :: cs => startsWithChars pat (c :: cs) || includesChars pat cs

/-- JavaScript `s.includes(pat)`. -/
def includes (s pat : String) : Bool := includesChars pat.data s.data

/-- JavaScript `a || b` where `a` is an optional string and `b` a string: `a` when it
is a non-empty string, otherwise `b`. -/
def orStr (a : Option String) (b : String) : String :=
  match a with
  | some s => if s = "" then b else s
  | none => b

/-- JavaScript `a || b` where both sides may be absent: `a` when it is a non-empty
string, otherwise `b`. -/
def orOpt (a b : Option String) : Option String :=
  match a with
  | some s => if s = "" then b else some s
  | none => b

/-! ## Helper functions of `server.js` -/

/-- The text after the pattern `pat` when `cs` begins with it. -/
def dropPattern : List Char → List Char → Option (List Char)
  | [], cs => some cs
  | _ :: _, [] => none
  | p :: ps, c :: cs => if p = c then dropPattern ps cs else none

/-- One attempt of the regular expression `/\/video\/(\d+)/` at the start of `cs`:
the literal `/video/` and then the longest non-empty run of ASCII digits, which is
capture group 1. -/
def matchVideoAt (cs : List Char) : Option (List Char) :=
  match dropPattern "/video/".data cs with
  | none => none
  | some rest =>
    if rest.takeWhile Char.isDigit = [] then none else some (rest.takeWhile Char.isDigit)

/-- JavaScript `url.match(/\/video\/(\d+)/)`, returning capture group 1 of the leftmost
match: start positions are tried from left to right. -/
def matchVideo : List Char → Option (List Char)
  | [] => none
  | c :: cs =>
    match matchVideoAt (c :: cs) with
    | some digits => some digits
    | none => matchVideo cs

/-- Source function `extractVideoId(url)`; `now` is the value of `Date.now()`. -/
def extractVideoId (now : Nat) (url : String) : String :=
  match matchVideo url.data with
  | some digits => String.mk digits
  | none => numToString now

/-- Source function `formatDuration(seconds)`. -/
def formatDuration (seconds : Nat) : String :=
  let mins := mathFloor (jsDiv seconds 60)
  let secs := mathFloor ⟨seconds % 60, 0⟩
  numToString mins ++ ":" ++ padStart (numToString secs) 2 '0'

/-- Source function `formatNumber(num)`. -/
def formatNumber (num : Nat) : String :=
  if num ≥ 1000000 then toFixed (jsDiv num 1000000) 1 ++ "M"
  else if num ≥ 1000 then toFixed (jsDiv num 1000) 1 ++ "K"
  else numToString num

/-! ## Data model -/

/-- The `author` object of a library payload. -/
structure Author where
  nickname : Option String
  unique_id : Option String
deriving DecidableEq, Repr

/-- The `musicInfo` object of a library payload. -/
structure MusicInfo where
  playUrl : Option String
  title : Option String
deriving DecidableEq, Repr

/-- The shapes of the `video` field of a library payload: missing, a single string, an
array of strings, or an object with optional `noWatermark` and `watermark` fields. -/
inductive VideoField where
  | absent
  | str (s : String)
  | list (urls : List String)
  | obj (noWatermark watermark : Option String)
deriving DecidableEq, Repr

/-- The payload `result.result` of a library response, `data` in the source. A field
that is `none` is `undefined` or `null`. -/
structure Payload where
  id : Option String
  title : Option String
  desc : Option String
  author : Option Author
  cover : Option String
  dynamicCover : Option String
  originCover : Option String
  duration : Option Nat
  playCount : Option Nat
  diggCount : Option Nat
  commentCount : Option Nat
  shareCount : Option Nat
  video : VideoField
  music : Option String
  musicInfo : Option MusicInfo
deriving DecidableEq, Repr

/-- The object both adapters return; `none` in an optional field is `null` or
`undefined`. -/
structure MediaResult where
  videoId : String
  title : String
  author : String
  authorUsername : String
  thumbnail : Option String
  duration : String
  views : String
  likes : String
  comments : String
  shares : String
  videoUrl : Option String
  audioUrl : Option String
  musicTitle : String
deriving DecidableEq, Repr

/-- The `result` property of a library response. -/
inductive PayloadSlot where
  | undefined
  | null
  | data (p : Payload)
deriving DecidableEq, Repr

/-- A truthy value resolved by `TiktokDL`. -/
structure LibResponse where
  status : String
  result : PayloadSlot
deriving DecidableEq, Repr

/-- A value thrown by the library: `undefined`, `null`, or a value whose `message`
property can be read, such as an `Error`. -/
inductive Thrown where
  | undefined
  | null
  | error (message : String)
deriving DecidableEq, Repr

/-- What one call `await TiktokDL(url, { version })` does: it throws (the promise is
rejected with `err`), or it resolves to a value, `none` standing for a falsy one. -/
inductive LibOutcome where
  | threw (err : Thrown)
  | returned (value : Option LibResponse)
deriving DecidableEq, Repr

/-- The property `req.body.url` of a request with a JSON body: missing, or a JSON value.
Of a number only its being zero matters, of an array only which elements are strings
(`some s`) and which are other values (`none`), of an object nothing. -/
inductive UrlField where
  | missing
  | null
  | bool (b : Bool)
  | num (n : Int)
  | str (s : String)
  | arr (elems : List (Option String))
  | obj
deriving DecidableEq, Repr

/-- The values of `url` that can pass the validation of the handler and reach the
adapters: a string or an array. -/
inductive PageUrl where
  | str (s : String)
  | arr (elems : List (Option String))
deriving DecidableEq, Repr

instance : Coe String PageUrl := ⟨PageUrl.str⟩

/-- A network response seen by the `page.on('response', ...)` listener. -/
structure NetResponse where
  url : String
  contentType : Option String
deriving DecidableEq, Repr

/-- The object computed inside the page by `page.evaluate`; `videoSrc` is `null` when
the page has no `video` element. -/
structure ScrapedData where
  title : String
  author : String
  thumbnail : String
  videoSrc : Option String
deriving DecidableEq, Repr

/-- What the browser part of `extractWithPuppeteer` does, from `puppeteer.launch` to
`browser.close()`: some step throws (and `closeError` is the error of the
`browser.close()` in the `catch` block, when that one throws as well), or every step
succeeds, having delivered `responses` to the listener in this order and scraped
`videoData`. -/
inductive BrowserSession where
  | crashed (message : String) (closeError : Option String)
  | scraped (responses : List NetResponse) (videoData : ScrapedData)
deriving DecidableEq, Repr

/-- The external capabilities and the clock. -/
structure Env where
  TiktokDL : PageUrl → String → LibOutcome
  browse : PageUrl → BrowserSession
  now : Nat

/-- An invocation of an external capability. -/
inductive Call where
  | tiktokDL (url : PageUrl) (version : String)
  | puppeteer (url : PageUrl)
deriving DecidableEq, Repr

/-- The global `stats` object. The counters stay far below `2 ^ 53`, where `++` is
exact. -/
structure Stats where
  library : Nat
  puppeteer : Nat
  failed : Nat
deriving DecidableEq, Repr

/-- The HTTP answers of `POST /api/download`: `res.json` with the adapter's object and a
`method` property, `res.status(400).json`, and `res.status(500).json`. -/
inductive HttpResponse where
  | ok (videoData : MediaResult) (method : String)
  | badRequest (error : String)
  | serverError (error message : String)
deriving DecidableEq, Repr

/-- The HTTP status code of an answer. -/
def HttpResponse.status : HttpResponse → Nat
  | .ok _ _ => 200
  | .badRequest _ => 400
  | .serverError _ _ => 500

/-! ## Method 1: the library adapter -/

/-- The protocol versions tried by `extractWithLibrary`. -/
def versions : List String := ["v1", "v2", "v3"]

/-- The loop condition `result && result.status === 'success'`. -/
def isSuccess : Option LibResponse → Bool
  | some r => r.status == "success"
  | none => false

/-- The `for (const version of versions)` loop of `extractWithLibrary`. The state is the
variable `result` and the call log. A call that throws leaves `result` as it was; the
inner `catch` reads `err.message`, which itself throws a `TypeError` when `err` is
`undefined` or `null`, and that error leaves the loop. An `Except.error` is the
message of an error thrown out of the loop. -/
def tryVersions (env : Env) (url : PageUrl) :
    List String → Option LibResponse → List Call →
      Except String (Option LibResponse) × List Call
  | [], result, calls => (.ok result, calls)
  | version :: rest, result, calls =>
    match env.TiktokDL url version with
    | .threw .undefined =>
      (.error "Cannot read properties of undefined (reading \x27message\x27)",
        calls ++ [.tiktokDL url version])
    | .threw .null =>
      (.error "Cannot read properties of null (reading \x27message\x27)",
        calls ++ [.tiktokDL url version])
    | .threw (.error _) => tryVersions env url rest result (calls ++ [.tiktokDL url version])
    | .returned value =>
      if isSuccess value then (.ok value, calls ++ [.tiktokDL url version])
      else tryVersions env url rest value (calls ++ [.tiktokDL url version])

/-- The selection of `videoUrl` from `data.video`. An empty string is falsy, an array
or an object is truthy; `data.video[0]` of an empty array is `undefined`. -/
def selectVideoUrl : VideoField → Option String
  | .absent => none
  | .str s => if s = "" then none else some s
  | .list urls => urls.head?
  | .obj noWatermark watermark => orOpt noWatermark (orOpt watermark none)

/-- The object literal returned by `extractWithLibrary` for the payload `data`. -/
def mapPayload (now : Nat) (url : String) (data : Payload) : MediaResult where
  videoId := orStr data.id (extractVideoId now url)
  title := orStr data.title (orStr data.desc "فيديو TikTok")
  author := orStr (data.author.bind Author.nickname)
    (orStr (data.author.bind Author.unique_id) "Unknown")
  authorUsername := orStr (data.author.bind Author.unique_id) ""
  thumbnail := orOpt data.cover (orOpt data.dynamicCover (orOpt data.originCover none))
  duration :=
    match data.duration with
    | some d => if d = 0 then "غير معروف" else formatDuration d
    | none => "غير معروف"
  views :=
    match data.playCount with
    | some n => if n = 0 then "0" else formatNumber n
    | none => "0"
  likes :=
    match data.diggCount with
    | some n => if n = 0 then "0" else formatNumber n
    | none => "0"
  comments :=
    match data.commentCount with
    | some n => if n = 0 then "0" else formatNumber n
    | none => "0"
  shares :=
    match data.shareCount with
    | some n => if n = 0 then "0" else formatNumber n
    | none => "0"
  videoUrl := selectVideoUrl data.video
  audioUrl := orOpt data.music (orOpt (data.musicInfo.bind MusicInfo.playUrl) none)
  musicTitle := orStr (data.musicInfo.bind MusicInfo.title) "صوت أصلي"

/-- The object literal returned by `extractWithLibrary` for any `url` the handler passes
on. Its first property is `data.id || extractVideoId(url)`; for an array `url` the call
`url.match` throws a `TypeError` when `data.id` is falsy, and no other property depends
on `url`. -/
def mapResult (now : Nat) (url : PageUrl) (data : Payload) : Except String MediaResult :=
  match url with
  | .str s => .ok (mapPayload now s data)
  | .arr _ =>
    match orOpt data.id none with
    | some id => .ok { mapPayload now "" data with videoId := id }
    | none => .error "url.match is not a function"

/-- The statements of the `try` block of `extractWithLibrary` after the loop, for the
final value of `result`. Reading `data.duration` of a `null` or `undefined` payload
throws a `TypeError`. -/
def afterLoop (env : Env) (url : PageUrl) (result : Option LibResponse) :
    Except String MediaResult :=
  match result with
  | none => .error "Library returned no valid data"
  | some r =>
    if r.status ≠ "success" then .error "Library returned no valid data"
    else
      match r.result with
      | .undefined => .error "Cannot read properties of undefined (reading \x27duration\x27)"
      | .null => .error "Cannot read properties of null (reading \x27duration\x27)"
      | .data data => mapResult env.now url data

/-- The `try` block of `extractWithLibrary`: the loop over the versions, then, unless
an error left the loop, the statements after it. -/
def extractWithLibraryTry (env : Env) (url : PageUrl) :
    Except String MediaResult × List Call :=
  let loop := tryVersions env url versions none []
  match loop.1 with
  | .error message => (.error message, loop.2)
  | .ok result => (afterLoop env url result, loop.2)

/-- Source function `extractWithLibrary(url)`: the `catch` block rethrows every error
with a fixed text before its message. -/
def extractWithLibrary (env : Env) (url : PageUrl) : Except String MediaResult × List Call :=
  let attempt := extractWithLibraryTry env url
  match attempt.1 with
  | .error message => (.error ("Library extraction failed: " ++ message), attempt.2)
  | .ok videoData => (.ok videoData, attempt.2)

/-! ## Method 2: the browser adapter -/

/-- The body of the `response` listener: the new values of `videoUrls` and
`audioUrls`. -/
def onResponse (lists : List String × List String) (response : NetResponse) :
    List String × List String :=
  let url := response.url
  let contentType := orStr response.contentType ""
  let videoUrls :=
    if includes contentType "video" || includes url ".mp4" then
      if lists.1.contains url then lists.1 else lists.1 ++ [url]
    else lists.1
  let audioUrls :=
    if includes contentType "audio" || includes url ".mp3" || includes url "music" then
      if lists.2.contains url then lists.2 else lists.2 ++ [url]
    else lists.2
  (videoUrls, audioUrls)

/-- The expression `videoData.videoSrc || videoUrls.find(u => !u.includes('watermark'))
|| videoUrls[0]`. -/
def finalVideoUrl (videoSrc : Option String) (videoUrls : List String) : Option String :=
  orOpt videoSrc
    (orOpt (videoUrls.find? (fun u => !includes u "watermark")) videoUrls.head?)

/-- The call `extractVideoId(url)` for any `url` the handler passes on: an array has no
`match` method. -/
def videoIdOf (now : Nat) : PageUrl → Except String String
  | .str s => .ok (extractVideoId now s)
  | .arr _ => .error "url.match is not a function"

/-- The part of `extractWithPuppeteer` after `browser.close()`, from the accumulated
lists and the scraped data to the returned object or the thrown error. The first
property of the returned object is `extractVideoId(url)`. -/
def reconcile (now : Nat) (url : PageUrl) (videoUrls audioUrls : List String)
    (videoData : ScrapedData) : Except String MediaResult :=
  match orOpt (finalVideoUrl videoData.videoSrc videoUrls) none with
  | none => .error "No video URL found"
  | some video =>
    match videoIdOf now url with
    | .error message => .error message
    | .ok videoId =>
      .ok
        { videoId := videoId
          title := orStr (some videoData.title) "فيديو TikTok"
          author := orStr (some videoData.author) "مستخدم"
          authorUsername := orStr (some videoData.author) ""
          thumbnail := orOpt (some videoData.thumbnail) none
          duration := "غير معروف"
          views := "0"
          likes := "0"
          comments := "0"
          shares := "0"
          videoUrl := some video
          audioUrl := orOpt audioUrls.head? none
          musicTitle := "صوت أصلي" }

/-- Source function `extractWithPuppeteer(url)`. An error thrown in the `try` block is
rethrown with a fixed text before its message, unless `browser.close()` in the `catch`
block throws first. -/
def extractWithPuppeteer (env : Env) (url : PageUrl) : Except String MediaResult × List Call :=
  match env.browse url with
  | .crashed message closeError =>
    match closeError with
    | some e => (.error e, [.puppeteer url])
    | none => (.error ("Puppeteer extraction failed: " ++ message), [.puppeteer url])
  | .scraped responses videoData =>
    let lists := responses.foldl onResponse ([], [])
    match reconcile env.now url lists.1 lists.2 videoData with
    | .error message => (.error ("Puppeteer extraction failed: " ++ message), [.puppeteer url])
    | .ok result => (.ok result, [.puppeteer url])

/-! ## The download endpoint -/

/-- The result of handling one request: the HTTP answer, the counters afterwards and
the capability calls made, in order. -/
structure Outcome where
  response : HttpResponse
  stats : Stats
  calls : List Call
deriving DecidableEq, Repr

/-- The two `try` blocks of the handler after validation and the statements after
them: the library adapter, then the browser adapter, then the error for the outer
`catch`. -/
def runStrategies (env : Env) (stats : Stats) (url : PageUrl) :
    Except String HttpResponse × Stats × List Call :=
  match extractWithLibrary env url with
  | (.ok videoData, calls) =>
    (.ok (.ok videoData "library"), { stats with library := stats.library + 1 }, calls)
  | (.error _, calls) =>
    match extractWithPuppeteer env url with
    | (.ok videoData, calls2) =>
      (.ok (.ok videoData "puppeteer"), { stats with puppeteer := stats.puppeteer + 1 },
        calls ++ calls2)
    | (.error _, calls2) =>
      (.error "جميع الطرق فشلت. حاول مرة أخرى لاحقاً.",
        { stats with failed := stats.failed + 1 }, calls ++ calls2)

/-- The outer `try` block of the `POST /api/download` handler; `url` is `req.body.url`.
An `Except.error` is the message of the error thrown into the outer `catch`. The test
`!url` holds for a missing property, `null`, `false`, `0` and the empty string. A
number, `true` and an object have no `includes` method, so the call `url.includes`
throws a `TypeError`; on an array `includes` looks for an element equal to its
argument. -/
def downloadTry (env : Env) (stats : Stats) (url : UrlField) :
    Except String HttpResponse × Stats × List Call :=
  match url with
  | .missing => (.ok (.badRequest "URL is required"), stats, [])
  | .null => (.ok (.badRequest "URL is required"), stats, [])
  | .bool false => (.ok (.badRequest "URL is required"), stats, [])
  | .bool true => (.error "url.includes is not a function", stats, [])
  | .num n =>
    if n = 0 then (.ok (.badRequest "URL is required"), stats, [])
    else (.error "url.includes is not a function", stats, [])
  | .obj => (.error "url.includes is not a function", stats, [])
  | .str url =>
    if url = "" then (.ok (.badRequest "URL is required"), stats, [])
    else if !includes url "tiktok.com" && !includes url "vm.tiktok.com" then
      (.ok (.badRequest "Invalid TikTok URL"), stats, [])
    else runStrategies env stats (.str url)
  | .arr elems =>
    if !elems.contains (some "tiktok.com") && !elems.contains (some "vm.tiktok.com") then
      (.ok (.badRequest "Invalid TikTok URL"), stats, [])
    else runStrategies env stats (.arr elems)

/-- The `POST /api/download` handler: the outer `catch` answers 500 with the message of
the error. -/
def download (env : Env) (stats : Stats) (url : UrlField) : Outcome :=
  match downloadTry env stats url with
  | (.ok response, stats, calls) => ⟨response, stats, calls⟩
  | (.error message, stats, calls) =>
    ⟨.serverError "فشل في معالجة الفيديو" message, stats, calls⟩

/-! ## Specification vocabulary -/

/-- The string `s` contains `pat` as a contiguous substring. -/
def Contains (s pat : String) : Prop :=
  ∃ pre post : List Char, s.data = pre ++ pat.data ++ post

/-- The request passes the validation of the handler: the `url` property is present,
non-empty and contains the domain marker. -/
def PassesValidation (url : Option String) : Prop :=
  ∃ u, url = some u ∧ u ≠ "" ∧ Contains u "tiktok.com"

/-- One library call succeeds in the sense of the loop of `extractWithLibrary`: it
resolves to a response whose status is `success`. -/
def HintSucceeds (o : LibOutcome) : Prop :=
  ∃ r, o = .returned (some r) ∧ r.status = "success"

/-- One library call fails in a way that lets the loop go on: it throws a value whose
`message` can be read, or it resolves to a value that is falsy or has another status
than `success`. -/
def HintFails (o : LibOutcome) : Prop :=
  (∃ message, o = .threw (.error message)) ∨
    ∃ value, o = .returned value ∧ ∀ r, value = some r → r.status ≠ "success"

/-- The text `url` has, after the prefix `pre`, the literal `/video/` followed by the
non-empty run of ASCII digits `digits`, and the run ends there: `rest` is empty or
begins with a character that is not a digit. -/
def VideoSegment (url pre digits rest : List Char) : Prop :=
  url = pre ++ "/video/".data ++ digits ++ rest ∧ digits ≠ [] ∧
    (∀ c ∈ digits, c.isDigit = true) ∧ (∀ c ∈ rest.head?, c.isDigit = false)

/-- The string `s` ends with `pat`. -/
def EndsWith (s pat : String) : Prop :=
  ∃ pre : List Char, s.data = pre ++ pat.data

/-- The test of the listener for a video candidate: the content type, or the empty
string when the header is missing, contains `video`, or the URL contains `.mp4`. -/
def VideoCandidate (r : NetResponse) : Prop :=
  Contains (orStr r.contentType "") "video" ∨ Contains r.url ".mp4"

/-- The test of the listener for an audio candidate: the content type contains `audio`,
or the URL contains `.mp3`, or the URL contains `music`. -/
def AudioCandidate (r : NetResponse) : Prop :=
  Contains (orStr r.contentType "") "audio" ∨ Contains r.url ".mp3" ∨ Contains r.url "music"

/-! ## Sample requests -/

/-- A page URL that passes validation. -/
def sampleUrl : String := "https://www.tiktok.com/@user/video/7123456789"

/-- A library payload with an array in its `video` field. -/
def samplePayload : Payload where
  id := some "7123456789"
  title := some "clip"
  desc := none
  author := some ⟨some "User", some "user"⟩
  cover := some "https://cdn/cover.jpg"
  dynamicCover := none
  originCover := none
  duration := some 65
  playCount := some 1500
  diggCount := some 999
  commentCount := none
  shareCount := some 2500000
  video := .list ["a.mp4", "b.mp4"]
  music := none
  musicInfo := some ⟨some "https://cdn/m.mp3", some "song"⟩

/-- An environment in which the library answers the first version with success. -/
def envLibrary : Env where
  TiktokDL := fun _ _ => .returned (some ⟨"success", .data samplePayload⟩)
  browse := fun _ => .crashed "Navigation timeout of 30000 ms exceeded" none
  now := 1700000000000

/-- An environment in which every library call throws and the browser session
succeeds. -/
def envFallback : Env where
  TiktokDL := fun _ _ => .threw (.error "Request failed with status code 403")
  browse := fun _ =>
    .scraped [⟨"https://cdn/watermark.mp4", some "video/mp4"⟩, ⟨"https://cdn/clean.mp4", none⟩]
      ⟨"clip", "user", "", none⟩
  now := 1700000000000

/-- An environment in which every library call throws and the browser session fails. -/
def envFailing : Env where
  TiktokDL := fun _ _ => .threw (.error "Request failed with status code 403")
  browse := fun _ => .crashed "Navigation timeout of 30000 ms exceeded" none
  now := 1700000000000

/-- An environment in which the library answers `v1` with status `success` and a `null`
payload, and every other version with status `success` and a full payload. -/
def envNullPayload : Env where
  TiktokDL := fun _ version =>
    if version = "v1" then .returned (some ⟨"success", .null⟩)
    else .returned (some ⟨"success", .data samplePayload⟩)
  browse := fun _ => .crashed "Navigation timeout of 30000 ms exceeded" none
  now := 1700000000000

/-- An environment in which the library rejects the call for `v1` with `null` and
answers every other version with status `success` and a full payload. -/
def envThrowsNull : Env where
  TiktokDL := fun _ version =>
    if version = "v1" then .threw .null
    else .returned (some ⟨"success", .data samplePayload⟩)
  browse := fun _ => .crashed "Navigation timeout of 30000 ms exceeded" none
  now := 1700000000000

/-- An environment in which the library answers with a payload that has no `video`
field, while the browser session would find a video. -/
def envNoVideo : Env where
  TiktokDL := fun _ _ => .returned (some ⟨"success", .data { samplePayload with video := .absent }⟩)
  browse := fun _ =>
    .scraped [⟨"https://cdn/clean.mp4", some "video/mp4"⟩] ⟨"clip", "user", "", none⟩
  now := 1700000000000

/-- A response for a signed media URL: `.mp4` is followed by a query string and the
content type does not mention video. -/
def signedVideoResponse : NetResponse :=
  ⟨"https://cdn/clip.mp4?token=1", some "application/octet-stream"⟩

/-- A response for an HTML page whose path contains the word `music`. -/
def musicPageResponse : NetResponse :=
  ⟨"https://www.tiktok.com/music/original-sound-1", some "text/html"⟩

/-! ## Substring search -/

theorem startsWithChars_iff (pat cs : List Char) :
    startsWithChars pat cs = true ↔ ∃ post, cs = pat ++ post := by
  induction pat generalizing cs with
  | nil => simp [startsWithChars]
  | cons p ps ih =>
    cases cs with
    | nil => simp [startsWithChars]
    | cons c cs =>
      simp only [startsWithChars, Bool.and_eq_true, beq_iff_eq, ih, List.cons_append,
        List.cons.injEq]
      constructor
      · rintro ⟨rfl, post, rfl⟩
        exact ⟨post, rfl, rfl⟩
      · rintro ⟨post, rfl, rfl⟩
        exact ⟨rfl, post, rfl⟩

theorem includesChars_iff (pat cs : List Char) :
    includesChars pat cs = true ↔ ∃ pre post, cs = pre ++ pat ++ post := by
  induction cs with
  | nil =>
    simp only [includesChars, startsWithChars_iff]
    constructor
    · rintro ⟨post, h⟩
      exact ⟨[], post, by simpa using h⟩
    · rintro ⟨pre, post, h⟩
      have h1 : pre ++ pat ++ post = [] := h.symm
      simp only [List.append_eq_nil] at h1
      exact ⟨[], by simp [h1.1.2]⟩
  | cons c cs ih =>
    simp only [includesChars, Bool.or_eq_true, startsWithChars_iff, ih]
    constructor
    · rintro (⟨post, h⟩ | ⟨pre, post, h⟩)
      · exact ⟨[], post, by simpa using h⟩
      · exact ⟨c :: pre, post, by simp [h]⟩
    · rintro ⟨pre, post, h⟩
      cases pre with
      | nil => exact Or.inl ⟨post, by simpa using h⟩
      | cons d pre =>
        simp only [List.cons_append, List.cons.injEq] at h
        exact Or.inr ⟨pre, post, h.2⟩

theorem includes_iff (s pat : String) : includes s pat = true ↔ Contains s pat := by
  simp [includes, Contains, includesChars_iff]

theorem contains_marker_of_short_link (u : String) (h : Contains u "vm.tiktok.com") :
    Contains u "tiktok.com" := by
  obtain ⟨pre, post, h⟩ := h
  refine ⟨pre ++ "vm.".data, post, ?_⟩
  rw [h]
  simp

/-- The validation test of the handler rejects exactly the strings without the
marker. -/
theorem validation_test (u : String) :
    (!includes u "tiktok.com" && !includes u "vm.tiktok.com") = true ↔
      ¬ Contains u "tiktok.com" := by
  constructor
  · intro h hc
    simp only [Bool.and_eq_true, Bool.not_eq_true', ← Bool.not_eq_true] at h
    exact h.1 ((includes_iff _ _).2 hc)
  · intro h
    have h1 : includes u "tiktok.com" = false := by
      rw [← Bool.not_eq_true]
      exact fun hc => h ((includes_iff _ _).1 hc)
    have h2 : includes u "vm.tiktok.com" = false := by
      rw [← Bool.not_eq_true]
      exact fun hc => h (contains_marker_of_short_link u ((includes_iff _ _).1 hc))
    simp [h1, h2]

theorem not_validation_test {u : String} (hc : Contains u "tiktok.com") :
    (!includes u "tiktok.com" && !includes u "vm.tiktok.com") = false := by
  rw [← Bool.not_eq_true, validation_test]
  exact not_not.2 hc

theorem downloadTry_valid (env : Env) (stats : Stats) (u : String) (hne : u ≠ "")
    (hc : Contains u "tiktok.com") :
    downloadTry env stats (.str u) = runStrategies env stats (.str u) := by
  unfold downloadTry
  simp [hne, not_validation_test hc]

theorem download_library (env : Env) (stats : Stats) (u : String) (hne : u ≠ "")
    (hc : Contains u "tiktok.com") (r : MediaResult) (calls : List Call)
    (h : extractWithLibrary env u = (.ok r, calls)) :
    download env stats (.str u) =
      ⟨.ok r "library", ⟨stats.library + 1, stats.puppeteer, stats.failed⟩, calls⟩ := by
  unfold download
  rw [downloadTry_valid env stats u hne hc]
  unfold runStrategies
  simp [h]

theorem download_puppeteer (env : Env) (stats : Stats) (u : String) (hne : u ≠ "")
    (hc : Contains u "tiktok.com") (e : String) (r : MediaResult) (calls calls2 : List Call)
    (h : extractWithLibrary env u = (.error e, calls))
    (h2 : extractWithPuppeteer env u = (.ok r, calls2)) :
    download env stats (.str u) =
      ⟨.ok r "puppeteer", ⟨stats.library, stats.puppeteer + 1, stats.failed⟩,
        calls ++ calls2⟩ := by
  unfold download
  rw [downloadTry_valid env stats u hne hc]
  unfold runStrategies
  simp [h, h2]

theorem download_failed (env : Env) (stats : Stats) (u : String) (hne : u ≠ "")
    (hc : Contains u "tiktok.com") (e e2 : String) (calls calls2 : List Call)
    (h : extractWithLibrary env u = (.error e, calls))
    (h2 : extractWithPuppeteer env u = (.error e2, calls2)) :
    download env stats (.str u) =
      ⟨.serverError "فشل في معالجة الفيديو" "جميع الطرق فشلت. حاول مرة أخرى لاحقاً.",
        ⟨stats.library, stats.puppeteer, stats.failed + 1⟩, calls ++ calls2⟩ := by
  unfold download
  rw [downloadTry_valid env stats u hne hc]
  unfold runStrategies
  simp [h, h2]

theorem extractWithPuppeteer_calls (env : Env) (p : PageUrl) :
    (extractWithPuppeteer env p).2 = [.puppeteer p] := by
  unfold extractWithPuppeteer
  split
  · split <;> rfl
  · simp only []
    split <;> rfl

theorem tryVersions_calls (env : Env) (p : PageUrl) (vs : List String)
    (result : Option LibResponse) (calls : List Call) :
    ∃ k, (vs ≠ [] → 1 ≤ k) ∧
      (tryVersions env p vs result calls).2 = calls ++ (vs.take k).map (Call.tiktokDL p) := by
  induction vs generalizing result calls with
  | nil => exact ⟨0, by simp, by simp [tryVersions]⟩
  | cons v vs ih =>
    unfold tryVersions
    split
    · exact ⟨1, by simp, by simp⟩
    · exact ⟨1, by simp, by simp⟩
    · obtain ⟨k, _, hk⟩ := ih result (calls ++ [.tiktokDL p v])
      exact ⟨k + 1, by simp, by simp [hk]⟩
    · split
      · exact ⟨1, by simp, by simp⟩
      · rename_i value _ _
        obtain ⟨k, _, hk⟩ := ih value (calls ++ [.tiktokDL p v])
        exact ⟨k + 1, by simp, by simp [hk]⟩

theorem extractWithLibrary_calls (env : Env) (p : PageUrl) :
    (extractWithLibrary env p).2 = (tryVersions env p versions none []).2 := by
  unfold extractWithLibrary extractWithLibraryTry
  simp only []
  split <;> split <;> rfl

theorem extractWithLibrary_result (env : Env) (p : PageUrl) :
    (extractWithLibrary env p).1 =
      match (tryVersions env p versions none []).1 with
      | .error message => .error ("Library extraction failed: " ++ message)
      | .ok result =>
        match afterLoop env p result with
        | .error message => .error ("Library extraction failed: " ++ message)
        | .ok videoData => .ok videoData := by
  unfold extractWithLibrary extractWithLibraryTry
  simp only []
  cases h1 : (tryVersions env p versions none []).1 with
  | error message => rfl
  | ok result =>
    simp only []
    cases h2 : afterLoop env p result <;> rfl

theorem extractWithLibrary_calls_head (env : Env) (p : PageUrl) :
    ∃ rest, (extractWithLibrary env p).2 = .tiktokDL p "v1" :: rest := by
  obtain ⟨k, hk1, hk⟩ := tryVersions_calls env p versions none []
  rw [extractWithLibrary_calls, hk]
  cases k with
  | zero => exact absurd (hk1 (by decide)) (by decide)
  | succ k => exact ⟨_, by simp [versions]; rfl⟩

theorem sampleUrl_valid : PassesValidation (some sampleUrl) :=
  ⟨sampleUrl, rfl, by decide, "https://www.".data, "/@user/video/7123456789".data, by decide⟩


/-! ## The download endpoint: C1, C2, C3 -/

/-- C1: for a request whose URL passes validation, when the library adapter succeeds the
handler answers with its result tagged `library`, adds exactly 1 to the `library`
counter, leaves the other two counters as they are and never starts the browser
adapter; when the library adapter fails and the browser adapter succeeds, the handler
answers with the browser result tagged `puppeteer`, adds exactly 1 to the `puppeteer`
counter only, and the browser adapter is called after all library calls. -/
theorem download_returns_first_success (env : Env) (stats : Stats) (u : String)
    (hvalid : PassesValidation (some u)) :
    (∀ r, (extractWithLibrary env u).1 = .ok r →
      (download env stats (.str u)).response = .ok r "library" ∧
      (download env stats (.str u)).stats =
        ⟨stats.library + 1, stats.puppeteer, stats.failed⟩ ∧
      (download env stats (.str u)).calls = (extractWithLibrary env u).2 ∧
      ∀ v, Call.puppeteer v ∉ (download env stats (.str u)).calls) ∧
    (∀ e r, (extractWithLibrary env u).1 = .error e →
      (extractWithPuppeteer env u).1 = .ok r →
      (download env stats (.str u)).response = .ok r "puppeteer" ∧
      (download env stats (.str u)).stats =
        ⟨stats.library, stats.puppeteer + 1, stats.failed⟩ ∧
      (download env stats (.str u)).calls =
        (extractWithLibrary env u).2 ++ [.puppeteer u]) := by
  obtain ⟨u', hu, hne, hc⟩ := hvalid
  cases hu
  constructor
  · intro r hr
    have h : extractWithLibrary env u = (.ok r, (extractWithLibrary env u).2) :=
      Prod.ext hr rfl
    rw [download_library env stats u hne hc r _ h]
    refine ⟨rfl, rfl, rfl, ?_⟩
    intro v hv
    simp only [extractWithLibrary_calls] at hv
    obtain ⟨k, _, hk⟩ := tryVersions_calls env u versions none []
    rw [hk] at hv
    simp only [List.nil_append, List.mem_map] at hv
    obtain ⟨w, _, hw⟩ := hv
    cases hw
  · intro e r he hr
    have h : extractWithLibrary env u = (.error e, (extractWithLibrary env u).2) :=
      Prod.ext he rfl
    have h2 : extractWithPuppeteer env u = (.ok r, [.puppeteer u]) :=
      Prod.ext hr (extractWithPuppeteer_calls env u)
    rw [download_puppeteer env stats u hne hc e r _ _ h h2]
    exact ⟨rfl, rfl, rfl⟩

theorem download_returns_first_success_witness :
    PassesValidation (some sampleUrl) ∧
      (download envLibrary ⟨0, 0, 0⟩ (.str sampleUrl)).response =
        .ok (mapPayload 1700000000000 sampleUrl samplePayload) "library" ∧
      (download envFallback ⟨0, 0, 0⟩ (.str sampleUrl)).stats = ⟨0, 1, 0⟩ :=
  ⟨sampleUrl_valid,
    ((download_returns_first_success envLibrary ⟨0, 0, 0⟩ sampleUrl sampleUrl_valid).1
      (mapPayload 1700000000000 sampleUrl samplePayload) rfl).1,
    ((download_returns_first_success envFallback ⟨0, 0, 0⟩ sampleUrl sampleUrl_valid).2
      _ _ rfl rfl).2.1⟩

/-- C2: for a request whose URL passes validation, when both adapters fail the handler
answers 500 with one fixed error text and one fixed message, whatever the two
underlying error messages are, adds exactly 1 to the `failed` counter and leaves the two
success counters as they are. -/
theorem download_all_failed (env : Env) (stats : Stats) (u : String) (e1 e2 : String)
    (hvalid : PassesValidation (some u))
    (h1 : (extractWithLibrary env u).1 = .error e1)
    (h2 : (extractWithPuppeteer env u).1 = .error e2) :
    (download env stats (.str u)).response =
        .serverError "فشل في معالجة الفيديو" "جميع الطرق فشلت. حاول مرة أخرى لاحقاً." ∧
      (download env stats (.str u)).response.status = 500 ∧
      (download env stats (.str u)).stats =
        ⟨stats.library, stats.puppeteer, stats.failed + 1⟩ := by
  obtain ⟨u', hu, hne, hc⟩ := hvalid
  cases hu
  have h : extractWithLibrary env u = (.error e1, (extractWithLibrary env u).2) :=
    Prod.ext h1 rfl
  have h' : extractWithPuppeteer env u = (.error e2, (extractWithPuppeteer env u).2) :=
    Prod.ext h2 rfl
  rw [download_failed env stats u hne hc e1 e2 _ _ h h']
  exact ⟨rfl, rfl, rfl⟩

theorem download_all_failed_witness :
    PassesValidation (some sampleUrl) ∧
      (download envFailing ⟨3, 2, 1⟩ (.str sampleUrl)).stats = ⟨3, 2, 2⟩ :=
  ⟨sampleUrl_valid,
    (download_all_failed envFailing ⟨3, 2, 1⟩ sampleUrl _ _ sampleUrl_valid rfl rfl).2.2⟩

/-- The validation of the handler on a `url` that is missing, `null` or a string: a
missing, `null` or empty `url` and a string without `tiktok.com` are answered 400, with
no capability call and with the three counters unchanged; for every other string the
first capability call is the library call of the primary adapter. -/
theorem download_validation (env : Env) (stats : Stats) (url : UrlField) :
    ((url = .missing ∨ url = .null ∨ url = .str "" ∨
        ∃ u, url = .str u ∧ ¬ Contains u "tiktok.com") →
      (∃ e, (download env stats url).response = .badRequest e) ∧
      (download env stats url).response.status = 400 ∧
      (download env stats url).calls = [] ∧
      (download env stats url).stats = stats) ∧
    (∀ u, url = .str u → u ≠ "" → Contains u "tiktok.com" →
      (download env stats url).calls.head? = some (.tiktokDL u "v1")) := by
  constructor
  · rintro (rfl | rfl | rfl | ⟨u, rfl, hu⟩)
    · exact ⟨⟨_, rfl⟩, rfl, rfl, rfl⟩
    · exact ⟨⟨_, rfl⟩, rfl, rfl, rfl⟩
    · exact ⟨⟨_, rfl⟩, rfl, rfl, rfl⟩
    · by_cases hne : u = ""
      · subst hne
        exact ⟨⟨_, rfl⟩, rfl, rfl, rfl⟩
      · have hv := (validation_test u).2 hu
        have h : download env stats (.str u) =
            ⟨.badRequest "Invalid TikTok URL", stats, []⟩ := by
          unfold download downloadTry
          simp [hne, hv]
        rw [h]
        exact ⟨⟨_, rfl⟩, rfl, rfl, rfl⟩
  · rintro u rfl hne hc
    obtain ⟨rest, hrest⟩ := extractWithLibrary_calls_head env u
    rcases hl : extractWithLibrary env u with ⟨_ | r, calls⟩
    · rcases hp : extractWithPuppeteer env u with ⟨_ | r2, calls2⟩
      · rw [download_failed env stats u hne hc _ _ _ _ hl hp]
        rw [hl] at hrest
        simp only [] at hrest
        simp [hrest]
      · rw [download_puppeteer env stats u hne hc _ _ _ _ hl hp]
        rw [hl] at hrest
        simp only [] at hrest
        simp [hrest]
    · rw [download_library env stats u hne hc r calls hl]
      rw [hl] at hrest
      simp only [] at hrest
      simp [hrest]

theorem download_validation_witness :
    (download envLibrary ⟨0, 0, 0⟩ (.str "https://example.com/v/1")).response.status = 400 ∧
      (download envLibrary ⟨0, 0, 0⟩ (.str sampleUrl)).calls.head? =
        some (.tiktokDL sampleUrl "v1") := by
  refine ⟨((download_validation envLibrary ⟨0, 0, 0⟩ (.str "https://example.com/v/1")).1
      (Or.inr (Or.inr (Or.inr ⟨_, rfl, ?_⟩)))).2.1, ?_⟩
  · rw [← includes_iff]
    decide
  · exact (download_validation envLibrary ⟨0, 0, 0⟩ (.str sampleUrl)).2 sampleUrl rfl
      (by decide) (by rw [← includes_iff]; decide)

/-- C3: a request whose `url` is the number 123 does not contain `tiktok.com`, yet it is
not answered 400. The call `url.includes` throws a `TypeError`, which the outer `catch`
answers with 500 and the message of that error; no capability is called and the
counters are unchanged. The same happens for `true` and for an object. -/
theorem download_non_string_url (env : Env) (stats : Stats) :
    (download env stats (.num 123)).response =
        .serverError "فشل في معالجة الفيديو" "url.includes is not a function" ∧
      (download env stats (.num 123)).response.status = 500 ∧
      (download env stats (.num 123)).calls = [] ∧
      (download env stats (.num 123)).stats = stats ∧
      (download env stats (.bool true)).response.status = 500 ∧
      (download env stats .obj).response.status = 500 :=
  ⟨rfl, rfl, rfl, rfl, rfl, rfl⟩


/-! ## The library adapter: C4, C5, C10 -/

theorem isSuccess_iff (value : Option LibResponse) :
    isSuccess value = true ↔ HintSucceeds (.returned value) := by
  cases value with
  | none => simp [isSuccess, HintSucceeds]
  | some r => simp [isSuccess, HintSucceeds]

theorem isSuccess_of_fails (value : Option LibResponse)
    (h : ∀ r, value = some r → r.status ≠ "success") : isSuccess value = false := by
  cases value with
  | none => rfl
  | some r => simpa [isSuccess] using h r rfl

theorem tryVersions_stop (env : Env) (p : PageUrl) (pre : List String) (v : String)
    (post : List String) (r : LibResponse) (result : Option LibResponse) (calls : List Call)
    (hpre : ∀ w ∈ pre, HintFails (env.TiktokDL p w))
    (hv : env.TiktokDL p v = .returned (some r)) (hs : r.status = "success") :
    tryVersions env p (pre ++ v :: post) result calls =
      (.ok (some r), calls ++ (pre ++ [v]).map (Call.tiktokDL p)) := by
  induction pre generalizing result calls with
  | nil =>
    have : isSuccess (some r) = true := by simp [isSuccess, hs]
    simp [tryVersions, hv, this]
  | cons w pre ih =>
    have hrest : ∀ x ∈ pre, HintFails (env.TiktokDL p x) :=
      fun x hx => hpre x (List.mem_cons_of_mem _ hx)
    simp only [List.cons_append, tryVersions]
    rcases hpre w (List.mem_cons_self _ _) with ⟨message, hw⟩ | ⟨value, hw, hval⟩
    · rw [hw]
      simp only []
      exact (ih _ _ hrest).trans (by simp)
    · rw [hw]
      simp only [isSuccess_of_fails value hval]
      rw [if_neg (by simp)]
      exact (ih _ _ hrest).trans (by simp)

theorem tryVersions_abort (env : Env) (p : PageUrl) (pre : List String) (v : String)
    (post : List String) (result : Option LibResponse) (calls : List Call)
    (hpre : ∀ w ∈ pre, HintFails (env.TiktokDL p w))
    (hv : env.TiktokDL p v = .threw .null ∨ env.TiktokDL p v = .threw .undefined) :
    (∃ e, (tryVersions env p (pre ++ v :: post) result calls).1 = .error e) ∧
      (tryVersions env p (pre ++ v :: post) result calls).2 =
        calls ++ (pre ++ [v]).map (Call.tiktokDL p) := by
  induction pre generalizing result calls with
  | nil =>
    rcases hv with hv | hv <;> simp [tryVersions, hv]
  | cons w pre ih =>
    have hrest : ∀ x ∈ pre, HintFails (env.TiktokDL p x) :=
      fun x hx => hpre x (List.mem_cons_of_mem _ hx)
    simp only [List.cons_append, tryVersions]
    rcases hpre w (List.mem_cons_self _ _) with ⟨message, hw⟩ | ⟨value, hw, hval⟩
    · rw [hw]
      simp only []
      obtain ⟨h1, h2⟩ := ih result (calls ++ [.tiktokDL p w]) hrest
      exact ⟨h1, h2.trans (by simp)⟩
    · rw [hw]
      simp only [isSuccess_of_fails value hval]
      rw [if_neg (by simp)]
      obtain ⟨h1, h2⟩ := ih value (calls ++ [.tiktokDL p w]) hrest
      exact ⟨h1, h2.trans (by simp)⟩

theorem tryVersions_exhaust (env : Env) (p : PageUrl) (vs : List String)
    (result : Option LibResponse) (calls : List Call)
    (hvs : ∀ w ∈ vs, HintFails (env.TiktokDL p w)) (hr : isSuccess result = false) :
    ∃ final, isSuccess final = false ∧
      tryVersions env p vs result calls = (.ok final, calls ++ vs.map (Call.tiktokDL p)) := by
  induction vs generalizing result calls with
  | nil => exact ⟨result, hr, by simp [tryVersions]⟩
  | cons w vs ih =>
    have hrest : ∀ x ∈ vs, HintFails (env.TiktokDL p x) :=
      fun x hx => hvs x (List.mem_cons_of_mem _ hx)
    simp only [tryVersions]
    rcases hvs w (List.mem_cons_self _ _) with ⟨message, hw⟩ | ⟨value, hw, hval⟩
    · rw [hw]
      simp only []
      obtain ⟨final, h1, h2⟩ := ih result (calls ++ [.tiktokDL p w]) hrest hr
      exact ⟨final, h1, h2.trans (by simp)⟩
    · have hns := isSuccess_of_fails value hval
      rw [hw]
      simp only [hns]
      rw [if_neg (by simp)]
      obtain ⟨final, h1, h2⟩ := ih value (calls ++ [.tiktokDL p w]) hrest hns
      exact ⟨final, h1, h2.trans (by simp)⟩

theorem afterLoop_of_not_success (env : Env) (p : PageUrl) (result : Option LibResponse)
    (hr : isSuccess result = false) :
    afterLoop env p result = .error "Library returned no valid data" := by
  cases result with
  | none => rfl
  | some r =>
    have : r.status ≠ "success" := by simpa [isSuccess] using hr
    simp [afterLoop, this]

theorem extractWithLibrary_exhausted (env : Env) (p : PageUrl)
    (h : ∀ w ∈ versions, HintFails (env.TiktokDL p w)) :
    extractWithLibrary env p =
      (.error "Library extraction failed: Library returned no valid data",
        versions.map (Call.tiktokDL p)) := by
  obtain ⟨final, h1, h2⟩ := tryVersions_exhaust env p versions none [] h rfl
  refine Prod.ext ?_ ?_
  · rw [extractWithLibrary_result, h2]
    simp only []
    rw [afterLoop_of_not_success env p _ h1]
    rfl
  · rw [extractWithLibrary_calls, h2]
    rfl

theorem extractWithLibrary_stopped (env : Env) (u : String) (pre : List String) (v : String)
    (post : List String) (r : LibResponse) (hsplit : versions = pre ++ v :: post)
    (hpre : ∀ w ∈ pre, HintFails (env.TiktokDL u w))
    (hv : env.TiktokDL u v = .returned (some r)) (hs : r.status = "success") :
    (extractWithLibrary env u).2 = (pre ++ [v]).map (Call.tiktokDL u) ∧
      (∀ data, r.result = .data data →
        (extractWithLibrary env u).1 = .ok (mapPayload env.now u data)) ∧
      (r.result = .null →
        (extractWithLibrary env u).1 = .error
          "Library extraction failed: Cannot read properties of null (reading \x27duration\x27)") ∧
      (r.result = .undefined →
        (extractWithLibrary env u).1 = .error
          "Library extraction failed: Cannot read properties of undefined (reading \x27duration\x27)") := by
  have hloop := tryVersions_stop env u pre v post r none [] hpre hv hs
  rw [← hsplit] at hloop
  refine ⟨?_, ?_, ?_, ?_⟩
  · rw [extractWithLibrary_calls, hloop]
    rfl
  · intro data hd
    rw [extractWithLibrary_result, hloop]
    simp [afterLoop, hs, hd, mapResult]
  · intro hd
    rw [extractWithLibrary_result, hloop]
    simp [afterLoop, hs, hd]
  · intro hd
    rw [extractWithLibrary_result, hloop]
    simp [afterLoop, hs, hd]

theorem selectVideoUrl_eq_none_iff (video : VideoField) :
    selectVideoUrl video = none ↔
      video = .absent ∨ video = .str "" ∨ video = .list [] ∨
        ∃ noWatermark watermark, video = .obj noWatermark watermark ∧
          (noWatermark = none ∨ noWatermark = some "") ∧
          (watermark = none ∨ watermark = some "") := by
  cases video with
  | absent => simp [selectVideoUrl]
  | str s => by_cases h : s = "" <;> simp [selectVideoUrl, h]
  | list urls => cases urls <;> simp [selectVideoUrl]
  | obj nw w =>
    constructor
    · intro h
      refine Or.inr (Or.inr (Or.inr ⟨nw, w, rfl, ?_, ?_⟩))
      · rcases nw with _ | a
        · exact Or.inl rfl
        · by_cases ha : a = ""
          · exact Or.inr (by rw [ha])
          · simp [selectVideoUrl, orOpt, ha] at h
      · rcases w with _ | b
        · exact Or.inl rfl
        · by_cases hb : b = ""
          · exact Or.inr (by rw [hb])
          · rcases nw with _ | a
            · simp [selectVideoUrl, orOpt, hb] at h
            · by_cases ha : a = "" <;> simp [selectVideoUrl, orOpt, ha, hb] at h
    · rintro (h | h | h | ⟨nw', w', h, hnw, hw⟩)
      · cases h
      · cases h
      · cases h
      · cases h
        rcases hnw with rfl | rfl <;> rcases hw with rfl | rfl <;> rfl

/-- C4: on a successful payload that has no `video` field the library adapter does not
throw. It returns a result whose `videoUrl` is `null`; the handler answers with that
result tagged `library`, counts a library success and never starts the browser
adapter, which in this environment would have found a video. -/
theorem extractWithLibrary_returns_null_videoUrl :
    (∃ r, (extractWithLibrary envNoVideo sampleUrl).1 = .ok r ∧ r.videoUrl = none) ∧
      (∃ r, (download envNoVideo ⟨0, 0, 0⟩ (.str sampleUrl)).response = .ok r "library" ∧
        r.videoUrl = none) ∧
      (download envNoVideo ⟨0, 0, 0⟩ (.str sampleUrl)).stats = ⟨1, 0, 0⟩ ∧
      (download envNoVideo ⟨0, 0, 0⟩ (.str sampleUrl)).calls = [.tiktokDL sampleUrl "v1"] ∧
      (∃ r, (extractWithPuppeteer envNoVideo sampleUrl).1 = .ok r ∧
        r.videoUrl = some "https://cdn/clean.mp4") :=
  ⟨⟨_, rfl, rfl⟩, ⟨_, rfl, rfl⟩, rfl, rfl, ⟨_, rfl, rfl⟩⟩

/-- C5: when the loop of the library adapter stops at a response with status `success`
and payload `data`, the adapter returns a result whose `videoUrl` follows the shape of
`data.video`: the first element of a non-empty array; the string itself for a
non-empty string; for an object its `noWatermark` field when that is a non-empty
string, and otherwise its `watermark` field. -/
theorem extractWithLibrary_videoUrl (env : Env) (u : String) (pre : List String)
    (v : String) (post : List String) (r : LibResponse) (data : Payload)
    (hsplit : versions = pre ++ v :: post)
    (hpre : ∀ w ∈ pre, HintFails (env.TiktokDL u w))
    (hv : env.TiktokDL u v = .returned (some r)) (hs : r.status = "success")
    (hd : r.result = .data data) :
    ∃ m, (extractWithLibrary env u).1 = .ok m ∧
      (∀ x xs, data.video = .list (x :: xs) → m.videoUrl = some x) ∧
      (∀ s, data.video = .str s → s ≠ "" → m.videoUrl = some s) ∧
      (∀ noWatermark watermark a, data.video = .obj noWatermark watermark →
        noWatermark = some a → a ≠ "" → m.videoUrl = some a) ∧
      (∀ noWatermark watermark b, data.video = .obj noWatermark watermark →
        (noWatermark = none ∨ noWatermark = some "") → watermark = some b → b ≠ "" →
        m.videoUrl = some b) := by
  refine ⟨mapPayload env.now u data,
    (extractWithLibrary_stopped env u pre v post r hsplit hpre hv hs).2.1 data hd, ?_, ?_, ?_, ?_⟩
  · intro x xs hx
    simp [mapPayload, hx, selectVideoUrl]
  · intro s hx hne
    simp [mapPayload, hx, selectVideoUrl, hne]
  · intro nw w a hx ha hne
    simp [mapPayload, hx, selectVideoUrl, ha, orOpt, hne]
  · intro nw w b hx hnw hb hne
    rcases hnw with rfl | rfl <;> simp [mapPayload, hx, selectVideoUrl, hb, orOpt, hne]

theorem extractWithLibrary_videoUrl_witness :
    ∃ m, (extractWithLibrary envLibrary sampleUrl).1 = .ok m ∧ m.videoUrl = some "a.mp4" := by
  obtain ⟨m, hm, hlist, _⟩ :=
    extractWithLibrary_videoUrl envLibrary sampleUrl [] "v1" ["v2", "v3"]
      ⟨"success", .data samplePayload⟩ samplePayload rfl (by simp) rfl rfl rfl
  exact ⟨m, hm, hlist "a.mp4" ["b.mp4"] rfl⟩


/-- The loop of the library adapter on the calls that let it go on. The versions are
`v1`, `v2`, `v3`, called in this order. After calls that throw an error or resolve to
anything but a response with status `success`, the loop stops at the first call that
resolves to status `success`, no later version is called, and a payload that is
present is mapped and returned. When every call throws an error or resolves to
anything but status `success`, all three versions are called and the adapter fails. -/
theorem extractWithLibrary_hints (env : Env) (u : String) :
    versions = ["v1", "v2", "v3"] ∧
    (∀ pre v post r, versions = pre ++ v :: post →
      (∀ w ∈ pre, HintFails (env.TiktokDL u w)) →
      env.TiktokDL u v = .returned (some r) → r.status = "success" →
      (extractWithLibrary env u).2 = (pre ++ [v]).map (Call.tiktokDL u) ∧
      (∀ data, r.result = .data data →
        (extractWithLibrary env u).1 = .ok (mapPayload env.now u data))) ∧
    ((∀ w ∈ versions, HintFails (env.TiktokDL u w)) →
      (extractWithLibrary env u).2 = versions.map (Call.tiktokDL u) ∧
      (extractWithLibrary env u).1 =
        .error "Library extraction failed: Library returned no valid data") := by
  refine ⟨rfl, ?_, ?_⟩
  · intro pre v post r hsplit hpre hv hs
    obtain ⟨h1, h2, _, _⟩ := extractWithLibrary_stopped env u pre v post r hsplit hpre hv hs
    exact ⟨h1, h2⟩
  · intro h
    rw [extractWithLibrary_exhausted env u h]
    exact ⟨rfl, rfl⟩

theorem extractWithLibrary_hints_witness :
    (extractWithLibrary envLibrary sampleUrl).2 = [.tiktokDL sampleUrl "v1"] ∧
      (extractWithLibrary envFailing sampleUrl).2 =
        [.tiktokDL sampleUrl "v1", .tiktokDL sampleUrl "v2", .tiktokDL sampleUrl "v3"] :=
  ⟨((extractWithLibrary_hints envLibrary sampleUrl).2.1 [] "v1" ["v2", "v3"]
      ⟨"success", .data samplePayload⟩ rfl (by simp) rfl rfl).1,
    ((extractWithLibrary_hints envFailing sampleUrl).2.2
      (fun _ _ => Or.inl ⟨_, rfl⟩)).1⟩

/-- C10: version `v1` resolves to status `success` with a `null` payload and version
`v2` to status `success` with a full payload. The adapter stops at `v1`, never calls
`v2` and fails on reading `data.duration`, although `v2` is the first version that
returns a success status with a non-null payload. In the second environment `v1`
rejects with `null`: reading `err.message` in the inner `catch` throws, the loop is
left and `v2`, which would succeed, is never called. -/
theorem extractWithLibrary_stops_at_null_payload :
    envNullPayload.TiktokDL sampleUrl "v1" = .returned (some ⟨"success", .null⟩) ∧
      envNullPayload.TiktokDL sampleUrl "v2" =
        .returned (some ⟨"success", .data samplePayload⟩) ∧
      (extractWithLibrary envNullPayload sampleUrl).2 = [.tiktokDL sampleUrl "v1"] ∧
      (extractWithLibrary envNullPayload sampleUrl).1 = .error
        "Library extraction failed: Cannot read properties of null (reading \x27duration\x27)" ∧
      envThrowsNull.TiktokDL sampleUrl "v1" = .threw .null ∧
      envThrowsNull.TiktokDL sampleUrl "v2" =
        .returned (some ⟨"success", .data samplePayload⟩) ∧
      (extractWithLibrary envThrowsNull sampleUrl).2 = [.tiktokDL sampleUrl "v1"] ∧
      (extractWithLibrary envThrowsNull sampleUrl).1 = .error
        "Library extraction failed: Cannot read properties of null (reading \x27message\x27)" :=
  ⟨rfl, rfl, rfl, rfl, rfl, rfl, rfl, rfl⟩


/-! ## The browser adapter: C6 -/

theorem reconcile_of_final (now : Nat) (u : String) (videoUrls audioUrls : List String)
    (videoData : ScrapedData) :
    (∀ x, orOpt (finalVideoUrl videoData.videoSrc videoUrls) none = some x →
      ∃ m, reconcile now u videoUrls audioUrls videoData = .ok m ∧ m.videoUrl = some x) ∧
    (orOpt (finalVideoUrl videoData.videoSrc videoUrls) none = none →
      reconcile now u videoUrls audioUrls videoData = .error "No video URL found") := by
  constructor
  · intro x hx
    unfold reconcile
    rw [hx]
    exact ⟨_, rfl, rfl⟩
  · intro hx
    unfold reconcile
    rw [hx]

theorem orOpt_some_of_ne {s : String} (hs : s ≠ "") (b : Option String) :
    orOpt (some s) b = some s := by
  simp [orOpt, hs]

theorem orOpt_of_absent {a : Option String} (ha : a = none ∨ a = some "")
    (b : Option String) : orOpt a b = b := by
  rcases ha with rfl | rfl <;> rfl

theorem find_first_clean (pre : List String) (c : String) (post : List String)
    (hpre : ∀ w ∈ pre, Contains w "watermark") (hc : ¬ Contains c "watermark") :
    (pre ++ c :: post).find? (fun x => !includes x "watermark") = some c := by
  induction pre with
  | nil =>
    have : includes c "watermark" = false := by
      rw [← Bool.not_eq_true, includes_iff]
      exact hc
    simp [this]
  | cons w pre ih =>
    have hw : includes w "watermark" = true :=
      (includes_iff _ _).2 (hpre w (List.mem_cons_self _ _))
    simp only [List.cons_append, List.find?_cons, hw, Bool.not_true]
    exact ih (fun x hx => hpre x (List.mem_cons_of_mem _ hx))

theorem find_none_of_all_marked (videoUrls : List String)
    (h : ∀ w ∈ videoUrls, Contains w "watermark") :
    videoUrls.find? (fun x => !includes x "watermark") = none := by
  rw [List.find?_eq_none]
  intro x hx
  simp [(includes_iff _ _).2 (h x hx)]

theorem final_of_source (s : String) (hs : s ≠ "") (videoUrls : List String) :
    orOpt (finalVideoUrl (some s) videoUrls) none = some s := by
  simp [finalVideoUrl, orOpt, hs]

theorem final_of_first_clean (videoSrc : Option String)
    (hsrc : videoSrc = none ∨ videoSrc = some "") (pre : List String) (c : String)
    (post : List String) (hne : c ≠ "") (hpre : ∀ w ∈ pre, Contains w "watermark")
    (hc : ¬ Contains c "watermark") :
    orOpt (finalVideoUrl videoSrc (pre ++ c :: post)) none = some c := by
  unfold finalVideoUrl
  rw [orOpt_of_absent hsrc, find_first_clean pre c post hpre hc, orOpt_some_of_ne hne,
    orOpt_some_of_ne hne]

theorem final_of_all_marked (videoSrc : Option String)
    (hsrc : videoSrc = none ∨ videoSrc = some "") (c : String) (rest : List String)
    (hne : c ≠ "") (hall : ∀ w ∈ c :: rest, Contains w "watermark") :
    orOpt (finalVideoUrl videoSrc (c :: rest)) none = some c := by
  unfold finalVideoUrl
  rw [orOpt_of_absent hsrc, find_none_of_all_marked _ hall]
  simp [orOpt, hne]

theorem final_eq_none_iff (videoSrc : Option String) (videoUrls : List String)
    (hne : ∀ c ∈ videoUrls, c ≠ "") :
    orOpt (finalVideoUrl videoSrc videoUrls) none = none ↔
      (videoSrc = none ∨ videoSrc = some "") ∧ videoUrls = [] := by
  constructor
  · intro h
    have hsrc : videoSrc = none ∨ videoSrc = some "" := by
      rcases videoSrc with _ | s
      · exact Or.inl rfl
      · by_cases hs : s = ""
        · exact Or.inr (by rw [hs])
        · rw [final_of_source s hs] at h
          cases h
    refine ⟨hsrc, ?_⟩
    cases videoUrls with
    | nil => rfl
    | cons c rest =>
      exfalso
      have hc : c ≠ "" := hne c (List.mem_cons_self _ _)
      unfold finalVideoUrl at h
      rw [orOpt_of_absent hsrc] at h
      cases hf : (c :: rest).find? (fun x => !includes x "watermark") with
      | none =>
        rw [hf] at h
        simp [orOpt, hc] at h
      | some x =>
        have hx : x ≠ "" := hne x (List.mem_of_find?_eq_some hf)
        rw [hf, orOpt_some_of_ne hx, orOpt_some_of_ne hx] at h
        cases h
  · rintro ⟨hsrc, rfl⟩
    unfold finalVideoUrl
    rw [orOpt_of_absent hsrc]
    rfl


theorem extractWithPuppeteer_scraped (env : Env) (u : String) (responses : List NetResponse)
    (videoData : ScrapedData) (videoUrls audioUrls : List String)
    (hb : env.browse u = .scraped responses videoData)
    (hl : responses.foldl onResponse ([], []) = (videoUrls, audioUrls)) :
    (extractWithPuppeteer env u).1 =
      match reconcile env.now u videoUrls audioUrls videoData with
      | .error message => .error ("Puppeteer extraction failed: " ++ message)
      | .ok result => .ok result := by
  unfold extractWithPuppeteer
  rw [hb]
  simp only [hl]
  split <;> rename_i h <;> simp [h]

/-- The statements after `browser.close()`, for every element source and every list of
non-empty candidates: the final `videoUrl` is the source of the `video` element when
that is a non-empty string; otherwise the first candidate that does not contain
`watermark`; otherwise the first candidate; the error `No video URL found` is thrown
exactly when the element has no source and there is no candidate. -/
theorem reconcile_videoUrl (now : Nat) (u : String) (videoUrls audioUrls : List String)
    (videoData : ScrapedData) (hne : ∀ c ∈ videoUrls, c ≠ "") :
    (∀ s, videoData.videoSrc = some s → s ≠ "" →
      ∃ m, reconcile now u videoUrls audioUrls videoData = .ok m ∧ m.videoUrl = some s) ∧
    ((videoData.videoSrc = none ∨ videoData.videoSrc = some "") →
      (∀ pre c post, videoUrls = pre ++ c :: post →
        (∀ w ∈ pre, Contains w "watermark") → ¬ Contains c "watermark" →
        ∃ m, reconcile now u videoUrls audioUrls videoData = .ok m ∧ m.videoUrl = some c) ∧
      (∀ c rest, videoUrls = c :: rest → (∀ w ∈ videoUrls, Contains w "watermark") →
        ∃ m, reconcile now u videoUrls audioUrls videoData = .ok m ∧ m.videoUrl = some c)) ∧
    ((∃ e, reconcile now u videoUrls audioUrls videoData = .error e) ↔
      (videoData.videoSrc = none ∨ videoData.videoSrc = some "") ∧ videoUrls = []) ∧
    (reconcile now u videoUrls audioUrls videoData = .error "No video URL found" ↔
      (videoData.videoSrc = none ∨ videoData.videoSrc = some "") ∧ videoUrls = []) := by
  obtain ⟨hok, herr⟩ := reconcile_of_final now u videoUrls audioUrls videoData
  have hiff : reconcile now u videoUrls audioUrls videoData = .error "No video URL found" ↔
      (videoData.videoSrc = none ∨ videoData.videoSrc = some "") ∧ videoUrls = [] := by
    rw [← final_eq_none_iff _ _ hne]
    constructor
    · intro h
      cases hf : orOpt (finalVideoUrl videoData.videoSrc videoUrls) none with
      | none => rfl
      | some x =>
        obtain ⟨m, hm, _⟩ := hok x hf
        rw [hm] at h
        cases h
    · exact herr
  have hany : (∃ e, reconcile now u videoUrls audioUrls videoData = .error e) ↔
      (videoData.videoSrc = none ∨ videoData.videoSrc = some "") ∧ videoUrls = [] := by
    rw [← hiff]
    constructor
    · rintro ⟨e, he⟩
      cases hf : orOpt (finalVideoUrl videoData.videoSrc videoUrls) none with
      | none => exact herr hf
      | some x =>
        obtain ⟨m, hm, _⟩ := hok x hf
        rw [hm] at he
        cases he
    · exact fun h => ⟨_, h⟩
  refine ⟨?_, ?_, hany, hiff⟩
  · intro s hs hs'
    apply hok
    rw [hs]
    exact final_of_source s hs' videoUrls
  · intro hsrc
    constructor
    · intro pre c post hsplit hpre hc
      apply hok
      rw [hsplit]
      exact final_of_first_clean _ hsrc pre c post (hne c (by simp [hsplit])) hpre hc
    · intro c rest hsplit hall
      apply hok
      rw [hsplit]
      exact final_of_all_marked _ hsrc c rest (hne c (by simp [hsplit])) (hsplit ▸ hall)

/-- C6: let the browser session for the page URL `u` complete, with `videoUrls` the
video candidates accumulated by the listener, every one a non-empty URL. Then the
`videoUrl` of the result that `extractWithPuppeteer` returns is the source of the
`video` element when that is a non-empty string; otherwise the first candidate, in
accumulation order, that does not contain `watermark`; otherwise the first candidate.
The adapter fails exactly when the element has no source and there is no candidate,
and its error is then `No video URL found` after the fixed words of the adapter. -/
theorem extractWithPuppeteer_videoUrl (env : Env) (u : String)
    (responses : List NetResponse) (videoData : ScrapedData)
    (videoUrls audioUrls : List String)
    (hb : env.browse u = .scraped responses videoData)
    (hl : responses.foldl onResponse ([], []) = (videoUrls, audioUrls))
    (hne : ∀ c ∈ videoUrls, c ≠ "") :
    (∀ s, videoData.videoSrc = some s → s ≠ "" →
      ∃ m, (extractWithPuppeteer env u).1 = .ok m ∧ m.videoUrl = some s) ∧
    ((videoData.videoSrc = none ∨ videoData.videoSrc = some "") →
      (∀ pre c post, videoUrls = pre ++ c :: post →
        (∀ w ∈ pre, Contains w "watermark") → ¬ Contains c "watermark" →
        ∃ m, (extractWithPuppeteer env u).1 = .ok m ∧ m.videoUrl = some c) ∧
      (∀ c rest, videoUrls = c :: rest → (∀ w ∈ videoUrls, Contains w "watermark") →
        ∃ m, (extractWithPuppeteer env u).1 = .ok m ∧ m.videoUrl = some c)) ∧
    ((∃ e, (extractWithPuppeteer env u).1 = .error e) ↔
      (videoData.videoSrc = none ∨ videoData.videoSrc = some "") ∧ videoUrls = []) ∧
    ((extractWithPuppeteer env u).1 =
        .error "Puppeteer extraction failed: No video URL found" ↔
      (videoData.videoSrc = none ∨ videoData.videoSrc = some "") ∧ videoUrls = []) ∧
    (extractWithPuppeteer env u).2 = [.puppeteer u] := by
  obtain ⟨h1, h2, h3, h4⟩ := reconcile_videoUrl env.now u videoUrls audioUrls videoData hne
  have hs := extractWithPuppeteer_scraped env u responses videoData videoUrls audioUrls hb hl
  have lift : ∀ m, reconcile env.now u videoUrls audioUrls videoData = .ok m →
      (extractWithPuppeteer env u).1 = .ok m := by
    intro m hm
    rw [hs, hm]
  refine ⟨?_, ?_, ?_, ?_, extractWithPuppeteer_calls env u⟩
  · intro s hsrc hs'
    obtain ⟨m, hm, hv⟩ := h1 s hsrc hs'
    exact ⟨m, lift m hm, hv⟩
  · intro hsrc
    obtain ⟨ha, hb'⟩ := h2 hsrc
    constructor
    · intro pre c post hsplit hpre hc
      obtain ⟨m, hm, hv⟩ := ha pre c post hsplit hpre hc
      exact ⟨m, lift m hm, hv⟩
    · intro c rest hsplit hall
      obtain ⟨m, hm, hv⟩ := hb' c rest hsplit hall
      exact ⟨m, lift m hm, hv⟩
  · rw [← h3, hs]
    cases hr : reconcile env.now u videoUrls audioUrls videoData with
    | error e => exact ⟨fun _ => ⟨e, rfl⟩, fun _ => ⟨_, rfl⟩⟩
    | ok m =>
      constructor
      · rintro ⟨e, he⟩
        cases he
      · rintro ⟨e, he⟩
        cases he
  · rw [← h4, hs]
    cases hr : reconcile env.now u videoUrls audioUrls videoData with
    | error e =>
      constructor
      · intro _
        rw [← hr]
        exact h4.2 (h3.1 ⟨e, hr⟩)
      · intro h
        cases h
        rfl
    | ok m =>
      constructor
      · intro h
        cases h
      · intro h
        cases h

theorem extractWithPuppeteer_videoUrl_witness :
    ∃ m, (extractWithPuppeteer envFallback sampleUrl).1 = .ok m ∧
      m.videoUrl = some "https://cdn/clean.mp4" :=
  ((extractWithPuppeteer_videoUrl envFallback sampleUrl
      [⟨"https://cdn/watermark.mp4", some "video/mp4"⟩, ⟨"https://cdn/clean.mp4", none⟩]
      ⟨"clip", "user", "", none⟩ ["https://cdn/watermark.mp4", "https://cdn/clean.mp4"] []
      rfl (by decide) (by decide)).2.1 (Or.inl rfl)).1
    ["https://cdn/watermark.mp4"] "https://cdn/clean.mp4" [] rfl
    (by
      intro w hw
      rw [List.mem_singleton] at hw
      rw [hw, ← includes_iff]
      decide)
    (by
      rw [← includes_iff]
      decide)


/-! ## Binary64 division and decimal digits -/

theorem normShift_spec (a b fuel k : Nat) (h : 2 ^ 52 * b ≤ a * 2 ^ (k + fuel)) :
    2 ^ 52 * b ≤ a * 2 ^ normShift a b fuel k := by
  induction fuel generalizing k with
  | zero => simpa [normShift] using h
  | succ fuel ih =>
    unfold normShift
    split
    · assumption
    · apply ih
      rw [show k + 1 + fuel = k + (fuel + 1) by omega]
      exact h

theorem normShift_reaches (a b : Nat) (ha : 0 < a) :
    2 ^ 52 * b ≤ a * 2 ^ normShift a b (53 + b) 0 := by
  apply normShift_spec
  have hb : b < 2 ^ b := Nat.lt_two_pow b
  have h1 : 2 ^ (0 + (53 + b)) = 2 ^ 53 * 2 ^ b := by
    rw [Nat.zero_add, Nat.pow_add]
  rw [h1]
  calc 2 ^ 52 * b ≤ 2 ^ 53 * 2 ^ b :=
        Nat.mul_le_mul (by norm_num) hb.le
    _ = 1 * (2 ^ 53 * 2 ^ b) := (Nat.one_mul _).symm
    _ ≤ a * (2 ^ 53 * 2 ^ b) := Nat.mul_le_mul_right _ ha

theorem roundHalfEven_bounds (p q : Nat) (hq : 0 < q) :
    2 * (q * roundHalfEven p q) ≤ 2 * p + q ∧ 2 * p ≤ 2 * (q * roundHalfEven p q) + q := by
  have hdm := Nat.div_add_mod p q
  have hlt := Nat.mod_lt p hq
  have hsucc : q * (p / q + 1) = q * (p / q) + q := by ring
  unfold roundHalfEven
  split_ifs <;> (try rw [hsucc]) <;> omega

/-- The quotient `a / b` computed in binary64, as significand and shift, with its error
bound: it differs from the exact quotient by at most half a unit of the last place. -/
theorem jsDiv_bounds (a b : Nat) (ha : 0 < a) (hb : 0 < b) :
    2 ^ 52 * b ≤ a * 2 ^ (jsDiv a b).shift ∧
      2 * (b * (jsDiv a b).mant) ≤ 2 * (a * 2 ^ (jsDiv a b).shift) + b ∧
      2 * (a * 2 ^ (jsDiv a b).shift) ≤ 2 * (b * (jsDiv a b).mant) + b := by
  have hne : a ≠ 0 := Nat.pos_iff_ne_zero.1 ha
  simp only [jsDiv, hne, if_false]
  exact ⟨normShift_reaches a b ha, roundHalfEven_bounds _ b hb⟩

theorem mathFloor_jsDiv_60 (s : Nat) (hs : s < 2 ^ 53) : mathFloor (jsDiv s 60) = s / 60 := by
  rcases Nat.eq_zero_or_pos s with rfl | hpos
  · rfl
  · obtain ⟨h1, h2, h3⟩ := jsDiv_bounds s 60 hpos (by norm_num)
    unfold mathFloor
    generalize (jsDiv s 60).mant = M at *
    generalize hP : 2 ^ (jsDiv s 60).shift = P at *
    have hPpos : 0 < P := by rw [← hP]; positivity
    have hsP : s * P < 2 ^ 53 * P := Nat.mul_lt_mul_of_pos_right hs hPpos
    have hdm := Nat.div_add_mod s 60
    have hlt := Nat.mod_lt s (show 0 < 60 by norm_num)
    have hexp : s * P = 60 * (s / 60 * P) + s % 60 * P := by
      conv_lhs => rw [← hdm]
      ring
    have hrP : s % 60 * P ≤ 59 * P := Nat.mul_le_mul_right _ (by omega)
    apply Nat.div_eq_of_lt_le
    · omega
    · rw [Nat.succ_mul]
      omega


theorem toDigitsCore_acc (fuel n : Nat) (ds : List Char) :
    Nat.toDigitsCore 10 fuel n ds = Nat.toDigitsCore 10 fuel n [] ++ ds := by
  induction fuel generalizing n ds with
  | zero => simp [Nat.toDigitsCore]
  | succ fuel ih =>
    simp only [Nat.toDigitsCore]
    split
    · simp
    · rw [ih (n / 10) (Nat.digitChar (n % 10) :: ds), ih (n / 10) [Nat.digitChar (n % 10)]]
      simp

theorem toDigitsCore_fuel (fuel n : Nat) (h : n < fuel) :
    Nat.toDigitsCore 10 fuel n [] = Nat.toDigitsCore 10 (n + 1) n [] := by
  induction fuel using Nat.strong_induction_on generalizing n with
  | _ fuel ih =>
    cases fuel with
    | zero => omega
    | succ fuel =>
      simp only [Nat.toDigitsCore]
      by_cases h0 : n / 10 = 0
      · simp [h0]
      · simp only [h0, if_false]
        have hlt : n / 10 < n := Nat.div_lt_self (by omega) (by norm_num)
        rw [toDigitsCore_acc fuel, toDigitsCore_acc n,
          ih fuel (Nat.lt_succ_self _) (n / 10) (by omega), ih n (by omega) (n / 10) hlt]

theorem toDigits_small (n : Nat) (h : n < 10) : Nat.toDigits 10 n = [Nat.digitChar n] := by
  have h0 : n / 10 = 0 := Nat.div_eq_of_lt h
  simp [Nat.toDigits, Nat.toDigitsCore, h0, Nat.mod_eq_of_lt h]

theorem toDigits_step (n : Nat) (h : 10 ≤ n) :
    Nat.toDigits 10 n = Nat.toDigits 10 (n / 10) ++ [Nat.digitChar (n % 10)] := by
  have h0 : n / 10 ≠ 0 := by omega
  have hlt : n / 10 < n := Nat.div_lt_self (by omega) (by norm_num)
  have hL : Nat.toDigitsCore 10 (n + 1) n [] =
      Nat.toDigitsCore 10 n (n / 10) [Nat.digitChar (n % 10)] := by
    simp only [Nat.toDigitsCore, h0, if_false]
  unfold Nat.toDigits
  rw [hL, toDigitsCore_acc, toDigitsCore_fuel n (n / 10) hlt]

theorem repr_data_step (n : Nat) (h : 10 ≤ n) :
    (Nat.repr n).data = (Nat.repr (n / 10)).data ++ (Nat.repr (n % 10)).data := by
  simp only [Nat.repr, List.asString]
  rw [toDigits_step n h, toDigits_small (n % 10) (Nat.mod_lt _ (by norm_num))]

theorem repr_data_small (n : Nat) (h : n < 10) : (Nat.repr n).data = [Nat.digitChar n] := by
  simp only [Nat.repr, List.asString]
  rw [toDigits_small n h]

theorem padStart_two (r : Nat) (h : r < 60) :
    padStart (numToString r) 2 '0' =
      if r < 10 then "0" ++ Nat.repr r else Nat.repr r := by
  interval_cases r <;> rfl


theorem repr_data_length_pos (n : Nat) : 0 < (Nat.repr n).data.length := by
  rcases Nat.lt_or_ge n 10 with h | h
  · rw [repr_data_small n h]
    simp
  · rw [repr_data_step n h, repr_data_small (n % 10) (Nat.mod_lt _ (by norm_num))]
    simp

theorem toFixed_one (x : Float64)
    (h : 10 ≤ (20 * x.mant + 2 ^ x.shift) / 2 ^ (x.shift + 1)) :
    toFixed x 1 =
      Nat.repr ((20 * x.mant + 2 ^ x.shift) / 2 ^ (x.shift + 1) / 10) ++ "." ++
        Nat.repr ((20 * x.mant + 2 ^ x.shift) / 2 ^ (x.shift + 1) % 10) := by
  have hpos := repr_data_length_pos ((20 * x.mant + 2 ^ x.shift) / 2 ^ (x.shift + 1) / 10)
  have hsmall := repr_data_small ((20 * x.mant + 2 ^ x.shift) / 2 ^ (x.shift + 1) % 10)
    (Nat.mod_lt _ (by norm_num))
  have hstep := repr_data_step _ h
  unfold toFixed
  simp only [show 2 * 10 ^ 1 = 20 by norm_num, show (1 : Nat) ≠ 0 by norm_num, if_false]
  generalize (20 * x.mant + 2 ^ x.shift) / 2 ^ (x.shift + 1) = n at *
  rw [hstep, hsmall]
  have hlen : ¬ ((Nat.repr (n / 10)).data ++ [Nat.digitChar (n % 10)]).length ≤ 1 := by
    simp only [List.length_append, List.length_singleton]
    omega
  rw [if_neg hlen]
  apply String.ext
  simp only [String.data_append, List.length_append, List.length_singleton,
    Nat.add_sub_cancel, List.take_left', List.drop_left']
  rw [hsmall]
  simp

/-- The integer that `toFixed(1)` prints for the binary64 quotient `n / (20 * h)` is a
nearest integer to the exact value of `n / (2 * h)`. -/
theorem toFixed_nearest (n h : Nat) (hh : h = 50 ∨ h = 50000) (hn : 20 * h ≤ n)
    (hlt : n < 2 ^ 53) :
    2 * h * ((20 * (jsDiv n (20 * h)).mant + 2 ^ (jsDiv n (20 * h)).shift) /
        2 ^ ((jsDiv n (20 * h)).shift + 1)) ≤ n + h ∧
      n ≤ 2 * h * ((20 * (jsDiv n (20 * h)).mant + 2 ^ (jsDiv n (20 * h)).shift) /
        2 ^ ((jsDiv n (20 * h)).shift + 1)) + h := by
  have hpos : 0 < n := by rcases hh with rfl | rfl <;> omega
  obtain ⟨h1, h2, h3⟩ := jsDiv_bounds n (20 * h) hpos (by rcases hh with rfl | rfl <;> omega)
  rw [Nat.pow_succ]
  generalize (jsDiv n (20 * h)).mant = M at *
  generalize hP : 2 ^ (jsDiv n (20 * h)).shift = P at *
  have hPpos : 0 < P := by rw [← hP]; positivity
  have hnP : n * P < 2 ^ 53 * P := Nat.mul_lt_mul_of_pos_right hlt hPpos
  have hdm := Nat.div_add_mod (20 * M + P) (P * 2)
  have hmod := Nat.mod_lt (20 * M + P) (show 0 < P * 2 by omega)
  generalize (20 * M + P) / (P * 2) = m at *
  generalize (20 * M + P) % (P * 2) = r at *
  have e1 : P * 2 * m = 2 * (P * m) := by ring
  rw [e1] at hdm
  constructor
  · by_contra hcon
    have hmul : (n + h + 1) * P ≤ 2 * h * m * P :=
      Nat.mul_le_mul_right _ (by omega)
    rcases hh with rfl | rfl
    · have e2 : 2 * 50 * m * P = 100 * (P * m) := by ring
      have e3 : (n + 50 + 1) * P = n * P + 51 * P := by ring
      have e4 : 20 * 50 * M = 1000 * M := by ring
      omega
    · have e2 : 2 * 50000 * m * P = 100000 * (P * m) := by ring
      have e3 : (n + 50000 + 1) * P = n * P + 50001 * P := by ring
      have e4 : 20 * 50000 * M = 1000000 * M := by ring
      omega
  · by_contra hcon
    have hmul : (2 * h * m + h + 1) * P ≤ n * P :=
      Nat.mul_le_mul_right _ (by omega)
    rcases hh with rfl | rfl
    · have e2 : (2 * 50 * m + 50 + 1) * P = 100 * (P * m) + 51 * P := by ring
      have e4 : 20 * 50 * M = 1000 * M := by ring
      omega
    · have e2 : (2 * 50000 * m + 50000 + 1) * P = 100000 * (P * m) + 50001 * P := by ring
      have e4 : 20 * 50000 * M = 1000000 * M := by ring
      omega


/-! ## The formatting helpers: C7, C8 -/

/-- C7: for every number of seconds `s` that is a non-negative safe integer,
`formatDuration(s)` is the decimal representation of `floor(s / 60)` without padding,
then `:`, then `s mod 60` in decimal, padded on the left with a zero to two digits; in
particular it gives `0:00` for 0, `1:05` for 65 and `59:59` for 3599. -/
theorem formatDuration_spec (s : Nat) (hs : s < 2 ^ 53) :
    formatDuration s =
        Nat.repr (s / 60) ++ ":" ++
          (if s % 60 < 10 then "0" ++ Nat.repr (s % 60) else Nat.repr (s % 60)) ∧
      formatDuration 0 = "0:00" ∧ formatDuration 65 = "1:05" ∧
      formatDuration 3599 = "59:59" := by
  refine ⟨?_, by decide, by decide, by decide⟩
  unfold formatDuration
  simp only [mathFloor_jsDiv_60 s hs]
  have hsec : mathFloor ⟨s % 60, 0⟩ = s % 60 := by simp [mathFloor]
  rw [hsec, padStart_two (s % 60) (Nat.mod_lt _ (by norm_num))]
  rfl

theorem formatDuration_spec_witness : 125 < 2 ^ 53 ∧ formatDuration 125 = "2:05" :=
  ⟨by norm_num, (formatDuration_spec 125 (by norm_num)).1.trans (by decide)⟩

/-- C8: for every non-negative safe integer `n`, `formatNumber(n)` is the plain decimal
representation of `n` below 1000; from 1000 up to 999999 it is `m / 10`, a decimal point
and the digit `m mod 10`, followed by `K`, where `m / 10` is a value with one decimal
place nearest to `n / 1000`; from 1000000 on it is the same with `M` and
`n / 1000000`; in particular it gives `999` for 999, `1.5K` for 1500 and `2.5M` for
2500000. -/
theorem formatNumber_spec (n : Nat) (hn : n < 2 ^ 53) :
    (n < 1000 → formatNumber n = Nat.repr n) ∧
      (1000 ≤ n → n < 1000000 →
        ∃ m, 100 * m ≤ n + 50 ∧ n ≤ 100 * m + 50 ∧
          formatNumber n = Nat.repr (m / 10) ++ "." ++ Nat.repr (m % 10) ++ "K") ∧
      (1000000 ≤ n →
        ∃ m, 100000 * m ≤ n + 50000 ∧ n ≤ 100000 * m + 50000 ∧
          formatNumber n = Nat.repr (m / 10) ++ "." ++ Nat.repr (m % 10) ++ "M") ∧
      formatNumber 999 = "999" ∧ formatNumber 1500 = "1.5K" ∧
      formatNumber 2500000 = "2.5M" := by
  refine ⟨?_, ?_, ?_, by decide, by decide, by decide⟩
  · intro h
    unfold formatNumber
    rw [if_neg (by omega), if_neg (by omega)]
    rfl
  · intro h1 h2
    obtain ⟨hlo, hhi⟩ := toFixed_nearest n 50 (Or.inl rfl) (by omega) hn
    simp only [show 20 * 50 = 1000 by norm_num, show 2 * 50 = 100 by norm_num] at hlo hhi
    refine ⟨_, hlo, hhi, ?_⟩
    unfold formatNumber
    rw [if_neg (by omega), if_pos (by omega), toFixed_one _ (by omega)]
  · intro h1
    obtain ⟨hlo, hhi⟩ := toFixed_nearest n 50000 (Or.inr rfl) (by omega) hn
    simp only [show 20 * 50000 = 1000000 by norm_num,
      show 2 * 50000 = 100000 by norm_num] at hlo hhi
    refine ⟨_, hlo, hhi, ?_⟩
    unfold formatNumber
    rw [if_pos (by omega), toFixed_one _ (by omega)]

theorem formatNumber_spec_witness :
    12345 < 2 ^ 53 ∧
      ∃ m, 100 * m ≤ 12345 + 50 ∧ 12345 ≤ 100 * m + 50 ∧
        formatNumber 12345 = Nat.repr (m / 10) ++ "." ++ Nat.repr (m % 10) ++ "K" :=
  ⟨by norm_num,
    (formatNumber_spec 12345 (by norm_num)).2.1 (by norm_num) (by norm_num)⟩

/-- An exact half is resolved by the binary64 value of the quotient: `1.15` is stored
below its decimal value and prints as `1.1`, `1.25` is stored exactly and prints as
`1.3`, `1.35` is stored above its decimal value and prints as `1.4`. -/
theorem formatNumber_halves :
    formatNumber 1150 = "1.1K" ∧ formatNumber 1250 = "1.3K" ∧ formatNumber 1350 = "1.4K" ∧
      formatNumber 1450 = "1.4K" := by
  decide


/-! ## The video identifier: C9 -/

theorem dropPattern_iff (pat cs rest : List Char) :
    dropPattern pat cs = some rest ↔ cs = pat ++ rest := by
  induction pat generalizing cs with
  | nil =>
    simp only [dropPattern, Option.some.injEq, List.nil_append]
  | cons p ps ih =>
    cases cs with
    | nil => simp [dropPattern]
    | cons c cs =>
      simp only [dropPattern, List.cons_append, List.cons.injEq]
      by_cases h : p = c
      · simp only [h, if_true, ih, true_and]
      · simp only [h, if_false, false_and]
        constructor
        · intro hh
          cases hh
        · intro hh
          exact absurd hh.1.symm h

theorem takeWhile_run (digits rest : List Char) (hd : ∀ c ∈ digits, c.isDigit = true)
    (hr : ∀ c ∈ rest.head?, c.isDigit = false) :
    (digits ++ rest).takeWhile Char.isDigit = digits := by
  induction digits with
  | nil =>
    cases rest with
    | nil => rfl
    | cons c rest =>
      have hc : c.isDigit = false := hr c (by simp)
      simp [List.takeWhile, hc]
  | cons d digits ih =>
    have hd' : d.isDigit = true := hd d (List.mem_cons_self _ _)
    simp only [List.cons_append, List.takeWhile, hd']
    exact congrArg (List.cons d) (ih (fun c hc => hd c (List.mem_cons_of_mem _ hc)))

theorem run_of_takeWhile (cs : List Char) :
    (∀ c ∈ cs.takeWhile Char.isDigit, c.isDigit = true) ∧
      (∀ c ∈ (cs.dropWhile Char.isDigit).head?, c.isDigit = false) := by
  induction cs with
  | nil => simp
  | cons c cs ih =>
    by_cases hc : c.isDigit = true
    · simp only [List.takeWhile, List.dropWhile, hc]
      refine ⟨?_, ih.2⟩
      intro x hx
      rcases List.mem_cons.1 hx with rfl | hx
      · exact hc
      · exact ih.1 x hx
    · have hc' : c.isDigit = false := by simpa using hc
      simp [List.takeWhile, List.dropWhile, hc']

theorem matchVideoAt_iff (cs digits : List Char) :
    matchVideoAt cs = some digits ↔ ∃ rest, VideoSegment cs [] digits rest := by
  unfold matchVideoAt
  constructor
  · intro h
    cases hdp : dropPattern "/video/".data cs with
    | none => simp [hdp] at h
    | some tail =>
      rw [hdp] at h
      simp only [] at h
      by_cases he : tail.takeWhile Char.isDigit = []
      · simp [he] at h
      · rw [if_neg he] at h
        cases h
        obtain ⟨h1, h2⟩ := run_of_takeWhile tail
        refine ⟨tail.dropWhile Char.isDigit, ?_, he, h1, h2⟩
        rw [(dropPattern_iff _ _ _).1 hdp, List.nil_append, List.append_assoc,
          List.takeWhile_append_dropWhile]
  · rintro ⟨rest, hcs, hne, hd, hr⟩
    have hdp : dropPattern "/video/".data cs = some (digits ++ rest) := by
      rw [dropPattern_iff, hcs]
      simp
    rw [hdp]
    simp only []
    rw [takeWhile_run digits rest hd hr, if_neg hne]

theorem videoSegment_cons (c : Char) (cs pre digits rest : List Char) :
    VideoSegment (c :: cs) (c :: pre) digits rest ↔ VideoSegment cs pre digits rest := by
  unfold VideoSegment
  simp

theorem videoSegment_head (c : Char) (cs : List Char) (p : Char) (pre digits rest : List Char)
    (h : VideoSegment (c :: cs) (p :: pre) digits rest) : p = c := by
  have h1 := h.1
  simp only [List.cons_append, List.cons.injEq] at h1
  exact h1.1.symm

theorem matchVideo_none (cs : List Char) (h : matchVideo cs = none) :
    ¬ ∃ pre digits rest, VideoSegment cs pre digits rest := by
  induction cs with
  | nil =>
    rintro ⟨pre, digits, rest, h1, _⟩
    have h2 := congrArg List.length h1
    simp at h2
    omega
  | cons c cs ih =>
    unfold matchVideo at h
    cases hat : matchVideoAt (c :: cs) with
    | some d => simp [hat] at h
    | none =>
      rw [hat] at h
      simp only [] at h
      rintro ⟨pre, digits, rest, hseg⟩
      cases pre with
      | nil =>
        have := (matchVideoAt_iff (c :: cs) digits).2 ⟨rest, hseg⟩
        rw [hat] at this
        cases this
      | cons p pre =>
        have hp := videoSegment_head c cs p pre digits rest hseg
        subst hp
        exact ih h ⟨pre, digits, rest, (videoSegment_cons _ _ _ _ _).1 hseg⟩

theorem matchVideo_some (cs digits : List Char) (h : matchVideo cs = some digits) :
    ∃ pre rest, VideoSegment cs pre digits rest ∧
      ∀ pre2 digits2 rest2, VideoSegment cs pre2 digits2 rest2 → pre.length ≤ pre2.length := by
  induction cs with
  | nil => simp [matchVideo] at h
  | cons c cs ih =>
    unfold matchVideo at h
    cases hat : matchVideoAt (c :: cs) with
    | some d =>
      rw [hat] at h
      cases h
      obtain ⟨rest, hseg⟩ := (matchVideoAt_iff _ _).1 hat
      exact ⟨[], rest, hseg, fun _ _ _ _ => Nat.zero_le _⟩
    | none =>
      rw [hat] at h
      simp only [] at h
      obtain ⟨pre, rest, hseg, hmin⟩ := ih h
      refine ⟨c :: pre, rest, (videoSegment_cons _ _ _ _ _).2 hseg, ?_⟩
      intro pre2 digits2 rest2 hseg2
      cases pre2 with
      | nil =>
        have := (matchVideoAt_iff (c :: cs) digits2).2 ⟨rest2, hseg2⟩
        rw [hat] at this
        cases this
      | cons p pre2 =>
        have hp := videoSegment_head c cs p pre2 digits2 rest2 hseg2
        subst hp
        have := hmin pre2 digits2 rest2 ((videoSegment_cons _ _ _ _ _).1 hseg2)
        simp only [List.length_cons]
        omega

theorem videoSegment_unique (cs pre digits rest pre2 digits2 rest2 : List Char)
    (h : VideoSegment cs pre digits rest) (h2 : VideoSegment cs pre2 digits2 rest2)
    (hlen : pre.length = pre2.length) : digits = digits2 := by
  obtain ⟨e1, _, d1, r1⟩ := h
  obtain ⟨e2, _, d2, r2⟩ := h2
  rw [e1, List.append_assoc, List.append_assoc, List.append_assoc, List.append_assoc] at e2
  obtain ⟨hpre, htail⟩ := List.append_inj e2 hlen
  have htail2 : digits ++ rest = digits2 ++ rest2 := by
    have := List.append_cancel_left htail
    exact this
  rw [← takeWhile_run digits rest d1 r1, htail2, takeWhile_run digits2 rest2 d2 r2]


theorem digitChar_isDigit (d : Nat) (h : d < 10) : (Nat.digitChar d).isDigit = true := by
  interval_cases d <;> rfl

theorem toDigits_all_digits (n : Nat) : ∀ c ∈ Nat.toDigits 10 n, c.isDigit = true := by
  induction n using Nat.strong_induction_on with
  | _ n ih =>
    rcases Nat.lt_or_ge n 10 with h | h
    · rw [toDigits_small n h]
      intro c hc
      rw [List.mem_singleton] at hc
      rw [hc]
      exact digitChar_isDigit n h
    · rw [toDigits_step n h]
      intro c hc
      rcases List.mem_append.1 hc with hc | hc
      · exact ih (n / 10) (Nat.div_lt_self (by omega) (by norm_num)) c hc
      · rw [List.mem_singleton] at hc
        rw [hc]
        exact digitChar_isDigit _ (Nat.mod_lt _ (by norm_num))

theorem toDigits_length_lower (k n : Nat) (h : 10 ^ k ≤ n) :
    k + 1 ≤ (Nat.toDigits 10 n).length := by
  induction k generalizing n with
  | zero =>
    rcases Nat.lt_or_ge n 10 with h10 | h10
    · rw [toDigits_small n h10]
      simp
    · rw [toDigits_step n h10]
      simp
  | succ k ih =>
    have hpow : 10 ^ (k + 1) = 10 ^ k * 10 := pow_succ 10 k
    have hpos : 0 < 10 ^ k := by positivity
    have h10 : 10 ≤ n := by omega
    have hdiv : 10 ^ k ≤ n / 10 := by
      rw [Nat.le_div_iff_mul_le (by norm_num)]
      omega
    rw [toDigits_step n h10, List.length_append, List.length_singleton]
    have := ih (n / 10) hdiv
    omega

/-- C9: when the URL contains `/video/` followed by a run of digits, `extractVideoId`
returns the digits of the first such occurrence, the whole run and nothing else; so
for a URL whose first occurrence is a numeric path segment it returns exactly that
segment, as for `https://x.test/@u/video/7123456789`. When the URL has no `/video/`
followed by a digit it returns the decimal string of the clock value `now`, which is
numeric and, for a clock value of at least `10 ^ 10` milliseconds, longer than 10
characters. -/
theorem extractVideoId_spec (now : Nat) (url : String) :
    (∀ pre digits rest, VideoSegment url.data pre digits rest →
      (∀ pre2 digits2 rest2, VideoSegment url.data pre2 digits2 rest2 →
        pre.length ≤ pre2.length) →
      extractVideoId now url = String.mk digits) ∧
    ((∃ pre digits rest, VideoSegment url.data pre digits rest) →
      ∃ pre digits rest, VideoSegment url.data pre digits rest ∧
        (∀ pre2 digits2 rest2, VideoSegment url.data pre2 digits2 rest2 →
          pre.length ≤ pre2.length) ∧
        extractVideoId now url = String.mk digits) ∧
    ((¬ ∃ pre digits rest, VideoSegment url.data pre digits rest) →
      extractVideoId now url = Nat.repr now) ∧
    ((∀ c ∈ (Nat.repr now).data, c.isDigit = true) ∧
      (10 ^ 10 ≤ now → 10 < (Nat.repr now).length)) ∧
    extractVideoId now "https://x.test/@u/video/7123456789" = "7123456789" := by
  refine ⟨?_, ?_, ?_, ⟨toDigits_all_digits now, ?_⟩, rfl⟩
  · intro pre digits rest hseg hmin
    cases hm : matchVideo url.data with
    | none => exact absurd ⟨pre, digits, rest, hseg⟩ (matchVideo_none _ hm)
    | some d =>
      obtain ⟨pre0, rest0, hseg0, hmin0⟩ := matchVideo_some _ _ hm
      have hlen : pre0.length = pre.length :=
        Nat.le_antisymm (hmin0 _ _ _ hseg) (hmin _ _ _ hseg0)
      have hd := videoSegment_unique _ _ _ _ _ _ _ hseg0 hseg hlen
      unfold extractVideoId
      rw [hm, hd]
  · rintro ⟨pre, digits, rest, hseg⟩
    cases hm : matchVideo url.data with
    | none => exact absurd ⟨pre, digits, rest, hseg⟩ (matchVideo_none _ hm)
    | some d =>
      obtain ⟨pre0, rest0, hseg0, hmin0⟩ := matchVideo_some _ _ hm
      refine ⟨pre0, d, rest0, hseg0, hmin0, ?_⟩
      unfold extractVideoId
      rw [hm]
  · intro hnone
    cases hm : matchVideo url.data with
    | none =>
      unfold extractVideoId
      rw [hm]
      rfl
    | some d =>
      obtain ⟨pre0, rest0, hseg0, _⟩ := matchVideo_some _ _ hm
      exact absurd ⟨pre0, d, rest0, hseg0⟩ hnone
  · intro h
    exact toDigits_length_lower 10 now h

theorem extractVideoId_spec_witness :
    10 < (Nat.repr 1700000000000).length ∧
      extractVideoId 1700000000000 "/video/7123456789012345678?lang=en" =
        "7123456789012345678" :=
  ⟨(extractVideoId_spec 1700000000000 "").2.2.2.1.2 (by norm_num),
    (extractVideoId_spec 1700000000000 "/video/7123456789012345678?lang=en").1
      [] "7123456789012345678".data "?lang=en".data
      ⟨by decide, by decide, by decide, by decide⟩
      (fun _ _ _ _ => Nat.zero_le _)⟩


/-! ## The response listener: C11 -/

theorem endsWith_iff (s pat : String) :
    EndsWith s pat ↔ startsWithChars pat.data.reverse s.data.reverse = true := by
  rw [startsWithChars_iff]
  constructor
  · rintro ⟨pre, h⟩
    exact ⟨pre.reverse, by rw [h, List.reverse_append]⟩
  · rintro ⟨post, h⟩
    refine ⟨post.reverse, ?_⟩
    have h2 := congrArg List.reverse h
    rw [List.reverse_reverse, List.reverse_append, List.reverse_reverse] at h2
    exact h2

theorem videoTest_iff (r : NetResponse) :
    (includes (orStr r.contentType "") "video" || includes r.url ".mp4") = true ↔
      VideoCandidate r := by
  simp only [Bool.or_eq_true, includes_iff, VideoCandidate]

theorem audioTest_iff (r : NetResponse) :
    (includes (orStr r.contentType "") "audio" || includes r.url ".mp3" ||
        includes r.url "music") = true ↔ AudioCandidate r := by
  simp only [Bool.or_eq_true, includes_iff, AudioCandidate, or_assoc]

theorem onResponse_video (lists : List String × List String) (r : NetResponse) :
    (onResponse lists r).1 =
      if (includes (orStr r.contentType "") "video" || includes r.url ".mp4") = true then
        if lists.1.contains r.url = true then lists.1 else lists.1 ++ [r.url]
      else lists.1 := rfl

theorem onResponse_audio (lists : List String × List String) (r : NetResponse) :
    (onResponse lists r).2 =
      if (includes (orStr r.contentType "") "audio" || includes r.url ".mp3" ||
          includes r.url "music") = true then
        if lists.2.contains r.url = true then lists.2 else lists.2 ++ [r.url]
      else lists.2 := rfl

theorem onResponse_video_mem (lists : List String × List String) (r : NetResponse)
    (u : String) :
    u ∈ (onResponse lists r).1 ↔ u ∈ lists.1 ∨ (r.url = u ∧ VideoCandidate r) := by
  rw [onResponse_video]
  by_cases hv : VideoCandidate r
  · rw [if_pos ((videoTest_iff r).2 hv)]
    by_cases hm : r.url ∈ lists.1
    · rw [if_pos (by simpa using hm)]
      constructor
      · exact Or.inl
      · rintro (h | ⟨rfl, _⟩)
        · exact h
        · exact hm
    · rw [if_neg (by simpa using hm)]
      simp only [List.mem_append, List.mem_singleton]
      constructor
      · rintro (h | h)
        · exact Or.inl h
        · exact Or.inr ⟨h.symm, hv⟩
      · rintro (h | ⟨h, _⟩)
        · exact Or.inl h
        · exact Or.inr h.symm
  · rw [if_neg (fun h => hv ((videoTest_iff r).1 h))]
    constructor
    · exact Or.inl
    · rintro (h | ⟨_, h⟩)
      · exact h
      · exact absurd h hv

theorem onResponse_audio_mem (lists : List String × List String) (r : NetResponse)
    (u : String) :
    u ∈ (onResponse lists r).2 ↔ u ∈ lists.2 ∨ (r.url = u ∧ AudioCandidate r) := by
  rw [onResponse_audio]
  by_cases hv : AudioCandidate r
  · rw [if_pos ((audioTest_iff r).2 hv)]
    by_cases hm : r.url ∈ lists.2
    · rw [if_pos (by simpa using hm)]
      constructor
      · exact Or.inl
      · rintro (h | ⟨rfl, _⟩)
        · exact h
        · exact hm
    · rw [if_neg (by simpa using hm)]
      simp only [List.mem_append, List.mem_singleton]
      constructor
      · rintro (h | h)
        · exact Or.inl h
        · exact Or.inr ⟨h.symm, hv⟩
      · rintro (h | ⟨h, _⟩)
        · exact Or.inl h
        · exact Or.inr h.symm
  · rw [if_neg (fun h => hv ((audioTest_iff r).1 h))]
    constructor
    · exact Or.inl
    · rintro (h | ⟨_, h⟩)
      · exact h
      · exact absurd h hv

theorem onResponse_nodup (lists : List String × List String) (r : NetResponse)
    (h1 : lists.1.Nodup) (h2 : lists.2.Nodup) :
    (onResponse lists r).1.Nodup ∧ (onResponse lists r).2.Nodup := by
  rw [onResponse_video, onResponse_audio]
  constructor
  · split
    · split
      · exact h1
      · rename_i hm
        have hm2 : r.url ∉ lists.1 := by simpa using hm
        exact List.Nodup.append h1 (List.nodup_singleton _) (by simpa using hm2)
    · exact h1
  · split
    · split
      · exact h2
      · rename_i hm
        have hm2 : r.url ∉ lists.2 := by simpa using hm
        exact List.Nodup.append h2 (List.nodup_singleton _) (by simpa using hm2)
    · exact h2

theorem session_lists (responses : List NetResponse) (lists : List String × List String)
    (h1 : lists.1.Nodup) (h2 : lists.2.Nodup) :
    (∀ u, u ∈ (responses.foldl onResponse lists).1 ↔
      u ∈ lists.1 ∨ ∃ r ∈ responses, r.url = u ∧ VideoCandidate r) ∧
    (∀ u, u ∈ (responses.foldl onResponse lists).2 ↔
      u ∈ lists.2 ∨ ∃ r ∈ responses, r.url = u ∧ AudioCandidate r) ∧
    (responses.foldl onResponse lists).1.Nodup ∧
    (responses.foldl onResponse lists).2.Nodup := by
  induction responses generalizing lists with
  | nil => simp [h1, h2]
  | cons r rs ih =>
    obtain ⟨n1, n2⟩ := onResponse_nodup lists r h1 h2
    obtain ⟨hv, ha, hn1, hn2⟩ := ih (onResponse lists r) n1 n2
    simp only [List.foldl_cons]
    refine ⟨?_, ?_, hn1, hn2⟩
    · intro u
      rw [hv u, onResponse_video_mem]
      simp only [List.mem_cons, exists_eq_or_imp]
      tauto
    · intro u
      rw [ha u, onResponse_audio_mem]
      simp only [List.mem_cons, exists_eq_or_imp]
      tauto


/-- C11 (as amended): the listener appends the URL of a response to the video candidates
exactly when the content type contains `video` or the URL contains `.mp4` anywhere,
and the URL is not in the list yet; it appends it to the audio candidates exactly when
the content type contains `audio`, or the URL contains `.mp3` anywhere, or the URL
contains `music`, and the URL is not in that list yet; otherwise the lists stay as they
are. After a session the video candidates are exactly the URLs of the responses that
pass the video test, the audio candidates exactly the URLs of the responses that pass
the audio test, each URL once. -/
theorem listener_classifies (lists : List String × List String) (r : NetResponse)
    (responses : List NetResponse) :
    (VideoCandidate r → r.url ∉ lists.1 → (onResponse lists r).1 = lists.1 ++ [r.url]) ∧
    (¬ VideoCandidate r → (onResponse lists r).1 = lists.1) ∧
    (r.url ∈ lists.1 → (onResponse lists r).1 = lists.1) ∧
    (AudioCandidate r → r.url ∉ lists.2 → (onResponse lists r).2 = lists.2 ++ [r.url]) ∧
    (¬ AudioCandidate r → (onResponse lists r).2 = lists.2) ∧
    (r.url ∈ lists.2 → (onResponse lists r).2 = lists.2) ∧
    (∀ u, u ∈ (responses.foldl onResponse ([], [])).1 ↔
      ∃ x ∈ responses, x.url = u ∧ VideoCandidate x) ∧
    (∀ u, u ∈ (responses.foldl onResponse ([], [])).2 ↔
      ∃ x ∈ responses, x.url = u ∧ AudioCandidate x) ∧
    (responses.foldl onResponse ([], [])).1.Nodup ∧
    (responses.foldl onResponse ([], [])).2.Nodup := by
  obtain ⟨hv, ha, n1, n2⟩ := session_lists responses ([], []) List.nodup_nil List.nodup_nil
  refine ⟨?_, ?_, ?_, ?_, ?_, ?_, ?_, ?_, n1, n2⟩
  · intro h hm
    rw [onResponse_video, if_pos ((videoTest_iff r).2 h), if_neg (by simpa using hm)]
  · intro h
    rw [onResponse_video, if_neg (fun t => h ((videoTest_iff r).1 t))]
  · intro hm
    rw [onResponse_video]
    split
    · rw [if_pos (by simpa using hm)]
    · rfl
  · intro h hm
    rw [onResponse_audio, if_pos ((audioTest_iff r).2 h), if_neg (by simpa using hm)]
  · intro h
    rw [onResponse_audio, if_neg (fun t => h ((audioTest_iff r).1 t))]
  · intro hm
    rw [onResponse_audio]
    split
    · rw [if_pos (by simpa using hm)]
    · rfl
  · intro u
    rw [hv u]
    simp
  · intro u
    rw [ha u]
    simp

theorem listener_classifies_witness :
    (onResponse ([], []) ⟨"https://cdn/clean.mp4", some "video/mp4"⟩).1 =
        ["https://cdn/clean.mp4"] ∧
      (onResponse (["https://cdn/clean.mp4"], []) ⟨"https://cdn/page.html", some "text/html"⟩).1 =
        ["https://cdn/clean.mp4"] :=
  ⟨(listener_classifies ([], []) ⟨"https://cdn/clean.mp4", some "video/mp4"⟩ []).1
      (Or.inl ((includes_iff _ _).1 (by decide))) (by simp),
    (listener_classifies (["https://cdn/clean.mp4"], [])
        ⟨"https://cdn/page.html", some "text/html"⟩ []).2.1
      (by
        rintro (h | h)
        · exact absurd ((includes_iff _ _).2 h) (by decide)
        · exact absurd ((includes_iff _ _).2 h) (by decide))⟩

/-- C11 (counterexample): the URL of the first response has `.mp4` before a query
string, so it does not end in `.mp4`, and its content type does not contain `video`; the
listener adds it to the video candidates all the same. The URL of the second response
contains `music`, does not end in `.mp3`, and its content type does not contain
`audio`; the listener adds it to the audio candidates. -/
theorem listener_accepts_inner_match :
    ¬ Contains (orStr signedVideoResponse.contentType "") "video" ∧
      ¬ EndsWith signedVideoResponse.url ".mp4" ∧
      (onResponse ([], []) signedVideoResponse).1 = ["https://cdn/clip.mp4?token=1"] ∧
      ¬ Contains (orStr musicPageResponse.contentType "") "audio" ∧
      ¬ EndsWith musicPageResponse.url ".mp3" ∧
      (onResponse ([], []) musicPageResponse).2 =
        ["https://www.tiktok.com/music/original-sound-1"] := by
  refine ⟨?_, ?_, by decide, ?_, ?_, by decide⟩
  · rw [← includes_iff]
    decide
  · rw [endsWith_iff]
    decide
  · rw [← includes_iff]
    decide
  · rw [endsWith_iff]
    decide

end TikTokDownloader
